import Mathlib

/-
Verification of the release-packaging pipeline (package_llvm.py and
upload_clang.py): a shallow embedding of the publishing, bundling,
caching and retry logic, with theorems about the claimed properties.

File contents are modelled as plain strings (Python bytes are opaque
tokens here); the filesystem is an association list from absolute path
to content; the remote release registry is a list of releases, each
holding a tag, an upload endpoint and a list of named assets.  HTTP
traffic is recorded as a trace of events so that temporal claims
(delete-before-upload, skip-and-continue) can be stated as facts about
the order and presence of events.
-/

namespace ReleasePipe

/-- Content of a file; Python bytes objects are modelled as strings. -/
abbrev Bytes := String

/-- Python exception kinds that the scripts raise or catch. -/
inductive PyErr where
  /-- IOError / OSError: raised by open, read, write and by extraction
      writing to disk.  Caught by the cached-archive block. -/
  | ioError (msg : String)
  /-- requests HTTPError carrying the response status, raised by
      raise_for_status and by explicit status checks. -/
  | httpError (status : Nat)
  /-- lzma.LZMAError or tarfile.ReadError: decode failure on corrupt
      archive bytes.  Not an IOError, so never caught by except IOError. -/
  | lzmaError (msg : String)
  /-- RuntimeError, raised by MakeBundle on a missing source file. -/
  | runtimeError (msg : String)
  /-- SystemExit, raised by sys.exit(message). -/
  | systemExit (msg : String)
  /-- AssertionError from the unknown-format branch. -/
  | assertionError (msg : String)
  /-- IndexError from indexing the first member of an empty tar. -/
  | indexError
  /-- AttributeError: IOError instances have no .message field on
      Python 3, so the cache-write failure printer itself raises. -/
  | attributeError
  deriving DecidableEq, Repr

/-- One request made to the network, in program order. -/
inductive Ev where
  /-- requests.get on a package or license URL (Download). -/
  | download (url : String)
  /-- GET of the release listing of the registry. -/
  | getReleases
  /-- DELETE of the asset with the given id. -/
  | deleteAsset (id : Nat)
  /-- POST creating a release with the given tag. -/
  | createRelease (tag : String)
  /-- POST or PUT of an asset with the given endpoint and asset name. -/
  | uploadAsset (url : String) (name : String)
  deriving DecidableEq, Repr

/-- Asset names carried by the upload events of a trace. -/
def uploadNames (evs : List Ev) : List String :=
  evs.filterMap (fun e => match e with
    | .uploadAsset _ n => some n
    | _ => none)

/-- Does the list start with the given pattern (prefix test on chars). -/
def isLead : List Char → List Char → Bool
  | [], _ => true
  | _ :: _, [] => false
  | a :: as, b :: bs => a = b && isLead as bs

/-- Worker for str.replace with explicit fuel; each step consumes at
least one character, so fuel equal to the input length is always
enough and the definition stays kernel-computable. -/
def replaceFuel (pat rep : List Char) : Nat → List Char → List Char
  | 0, l => l
  | _ + 1, [] => []
  | n + 1, c :: rest =>
    if pat.length != 0 && isLead pat (c :: rest) then
      rep ++ replaceFuel pat rep n (List.drop pat.length (c :: rest))
    else
      c :: replaceFuel pat rep n rest

/-- Python str.replace: replace every non-overlapping occurrence of pat,
scanning left to right.  Model of the replace calls used for url and
package-name templates. -/
def replaceList (pat rep : List Char) (l : List Char) : List Char :=
  replaceFuel pat rep l.length l

/-- str.replace lifted to strings. -/
def pyReplace (s pat rep : String) : String :=
  String.mk (replaceList pat.toList rep.toList s.toList)

/-- Python s[:n] on a string (used by the :.2 format precision). -/
def strTake (s : String) (n : Nat) : String :=
  String.mk (s.toList.take n)

/-- os.path.basename / os.path.split(...)[1] on posix paths. -/
def basename (s : String) : String :=
  String.mk ((s.toList.splitOn '/').getLastD [])

/-- First path component of a tar member name (name.split('/')[0]). -/
def firstComponent (s : String) : String :=
  String.mk ((s.toList.splitOn '/').headD [])

/-- The filesystem: absolute path to content, first binding wins. -/
abbrev FS := List (String × Bytes)

/-- Read a file if it exists (also the os.path.exists test). -/
def lookupFS (fs : FS) (p : String) : Option Bytes :=
  (fs.find? (fun q => q.1 = p)).map (fun q => q.2)

/-- Create or overwrite a file. -/
def addFile (fs : FS) (p : String) (b : Bytes) : FS :=
  (p, b) :: fs.filter (fun q => ¬ q.1 = p)

/-- shutil.rmtree: drop every file at or below the given directory. -/
def removeTree (fs : FS) (dir : String) : FS :=
  fs.filter (fun q => ¬ (isLead (dir.toList ++ ['/']) q.1.toList || q.1 = dir))

/-- Python dict assignment d[k] = v on an association list. -/
def updateAssoc {α : Type} (l : List (String × α)) (k : String) (v : α) :
    List (String × α) :=
  if l.any (fun p => p.1 = k) then
    l.map (fun p => if p.1 = k then (k, v) else p)
  else
    l ++ [(k, v)]

/-- A named binary file attached to a release, with its registry id. -/
structure Asset where
  name : String
  id : Nat
  deriving DecidableEq, Repr

/-- One release of the remote registry listing: tag, upload endpoint
(with the templated suffix GitHub appends), assets, and the metadata
sent at creation time. -/
structure Release where
  tag_name : String
  upload_url : String
  assets : List Asset
  title : String
  body : String
  prerelease : Bool
  deriving DecidableEq, Repr

/-- The remote release registry; nextId numbers freshly created assets. -/
structure Registry where
  releases : List Release
  nextId : Nat
  deriving DecidableEq, Repr

/-- Both scripts strip the templated suffix from upload endpoints. -/
def stripUrl (u : String) : String :=
  pyReplace u "\x7b?name,label\x7d" ""

/-- Tags of the releases of a registry, in listing order. -/
def tagsOf (reg : Registry) : List String :=
  reg.releases.map (fun r => r.tag_name)

/-- Modelled from the spec: the registry deletes an asset by id and
answers 204, or 404 when no asset has that id (delete-asset endpoint of
the remote registry API, an external collaborator of the scripts). -/
def deleteAssetR (reg : Registry) (aid : Nat) : Except Nat Registry :=
  if reg.releases.any (fun r => r.assets.any (fun a => a.id = aid)) then
    .ok { reg with releases :=
      reg.releases.map (fun r =>
        { r with assets := r.assets.filter (fun a => ¬ a.id = aid) }) }
  else
    .error 404

/-- Upload endpoint the registry hands out for a newly created release. -/
def mkUploadUrl (tag : String) : String :=
  "https://uploads.github.test/repos/ycm-core/llvm/releases/" ++ tag ++
    "/assets\x7b?name,label\x7d"

/-- Modelled from the spec: the registry creates a release and answers
201 with its upload endpoint, or rejects an already-used tag with 422
(create-release endpoint of the remote registry API). -/
def createReleaseR (reg : Registry) (tag title body : String)
    (prerelease : Bool) : Except Nat (Registry × String) :=
  if reg.releases.any (fun r => r.tag_name = tag) then
    .error 422
  else
    .ok ({ reg with releases := reg.releases ++
            [{ tag_name := tag, upload_url := mkUploadUrl tag, assets := [],
               title := title, body := body, prerelease := prerelease }] },
         mkUploadUrl tag)

/-- First release whose stripped upload endpoint equals the given url. -/
def findByUrl : List Release → String → Option Release
  | [], _ => none
  | r :: rs, url =>
    if stripUrl r.upload_url = url then some r else findByUrl rs url

/-- Attach an asset to the first release at the given endpoint. -/
def addAssetTo : List Release → String → Asset → Option (List Release)
  | [], _, _ => none
  | r :: rs, url, a =>
    if stripUrl r.upload_url = url then
      some ({ r with assets := r.assets ++ [a] } :: rs)
    else
      (addAssetTo rs url a).map (fun rs2 => r :: rs2)

/-- Number of assets with the given name inside an asset list. -/
def countNamed (assets : List Asset) (n : String) : Nat :=
  (assets.filter (fun a => a.name = n)).length

/-- Invariants every real registry listing satisfies: release tags are
unique, stripped upload endpoints are unique, asset names are unique
within a release, and asset ids are globally unique. -/
def WellFormed (reg : Registry) : Prop :=
  (reg.releases.map (fun r => r.tag_name)).Nodup ∧
  (reg.releases.map (fun r => stripUrl r.upload_url)).Nodup ∧
  (∀ r ∈ reg.releases, (r.assets.map (fun a => a.name)).Nodup) ∧
  ((reg.releases.map (fun r => r.assets.map (fun a => a.id))).flatten).Nodup

instance (reg : Registry) : Decidable (WellFormed reg) := by
  unfold WellFormed
  infer_instance

/-- Modelled from the spec: the registry accepts an asset upload with
201, rejects a duplicate asset name under the same release with 422
(duplicate-name conflicts that publishing APIs reject), and answers 404
for an unknown endpoint. -/
def uploadAssetR (reg : Registry) (url aname : String) : Except Nat Registry :=
  match findByUrl reg.releases url with
  | none => .error 404
  | some r =>
    if r.assets.any (fun a => a.name = aname) then
      .error 422
    else
      match addAssetTo reg.releases url { name := aname, id := reg.nextId } with
      | some rs => .ok { releases := rs, nextId := reg.nextId + 1 }
      | none => .error 404

end ReleasePipe

namespace PackageLlvm

open ReleasePipe

/-- The command-line arguments of package_llvm.py that the publisher
reads: the version positional and the optional release candidate. -/
structure Args where
  version : String
  release_candidate : Option Nat
  deriving DecidableEq, Repr

/-- Python truthiness of args.release_candidate: None and 0 are falsy. -/
def rcTruthy (rc : Option Nat) : Bool :=
  match rc with
  | none => false
  | some n => n != 0

/-- GetBundleVersion: version, or version-rcN when a truthy release
candidate was given. -/
def GetBundleVersion (args : Args) : String :=
  match args.release_candidate with
  | some n => if n != 0 then args.version ++ "-rc" ++ toString n else args.version
  | none => args.version

/-- The release name built by UploadLlvm before creating a release. -/
def releaseTitle (args : Args) : String :=
  if rcTruthy args.release_candidate then
    "LLVM and Clang " ++ args.version ++ " RC" ++
      toString (args.release_candidate.getD 0)
  else
    "LLVM and Clang " ++ args.version

/-- The loop of UploadLlvm over the release listing snapshot: remember
the upload endpoint of every release whose tag matches (the last one
wins), and inside a matching release delete the first asset whose name
equals the bundle name, checking for a 204. -/
def scanReleases (bundle_version bundle_name : String) :
    List Release → Option String → Registry → List Ev →
    Except PyErr (Option String × Registry) × List Ev
  | [], uu, reg, evs => (.ok (uu, reg), evs)
  | r :: rest, uu, reg, evs =>
    if r.tag_name != bundle_version then
      scanReleases bundle_version bundle_name rest uu reg evs
    else
      match r.assets.find? (fun a => a.name = bundle_name) with
      | none => scanReleases bundle_version bundle_name rest (some r.upload_url) reg evs
      | some a =>
        match deleteAssetR reg a.id with
        | .ok reg2 =>
          scanReleases bundle_version bundle_name rest (some r.upload_url) reg2
            (evs ++ [Ev.deleteAsset a.id])
        | .error _ =>
          (.error (.systemExit "Creating release failed"), evs ++ [Ev.deleteAsset a.id])

/-- The final POST of the bundle to the chosen upload endpoint, with
sys.exit on a status other than 201. -/
def uploadStep (reg : Registry) (url bundle_name : String) (evs : List Ev) :
    Except PyErr Registry × List Ev :=
  let evs2 := evs ++ [Ev.uploadAsset url bundle_name]
  match uploadAssetR reg url bundle_name with
  | .ok reg2 => (.ok reg2, evs2)
  | .error _ => (.error (.systemExit "Uploading failed"), evs2)

/-- UploadLlvm of package_llvm.py: list releases, reuse the endpoint of
an existing release with the bundle-version tag (deleting a same-named
asset first), otherwise create the release, then upload the bundle. -/
def UploadLlvm (args : Args) (bundle_path : String) (reg : Registry) :
    Except PyErr Registry × List Ev :=
  let bundle_version := GetBundleVersion args
  let bundle_name := basename bundle_path
  match scanReleases bundle_version bundle_name reg.releases none reg [Ev.getReleases] with
  | (.error e, evs) => (.error e, evs)
  | (.ok (some uu, reg1), evs) =>
    uploadStep reg1 (stripUrl uu) bundle_name evs
  | (.ok (none, reg1), evs) =>
    let prerelease := args.release_candidate.isSome
    let title := releaseTitle args
    let body := title ++ " without realtime, terminfo, and zlib dependencies."
    match createReleaseR reg1 bundle_version title body prerelease with
    | .error _ =>
      (.error (.systemExit "Releasing failed"), evs ++ [Ev.createRelease bundle_version])
    | .ok (reg2, uu) =>
      uploadStep reg2 (stripUrl uu) bundle_name (evs ++ [Ev.createRelease bundle_version])

end PackageLlvm

namespace UploadClang

open ReleasePipe

/-- item.format(llvm_version = version): the file-path templates use
the plain placeholder and the precision-2 truncating placeholder. -/
def itemFormat (s version : String) : String :=
  pyReplace (pyReplace s "\x7bllvm_version:.2\x7d" (strTake version 2))
    "\x7bllvm_version\x7d" version

/-- name.format(os_name, llvm_version) for package and archive names. -/
def pkgFormat (s os_name version : String) : String :=
  pyReplace (pyReplace (pyReplace s "\x7bos_name\x7d" os_name)
      "\x7bllvm_version:.2\x7d" (strTake version 2))
    "\x7bllvm_version\x7d" version

/-- url.format(llvm_version, llvm_package) for the download url. -/
def urlFormat (s version llvm_package : String) : String :=
  pyReplace (pyReplace s "\x7bllvm_version\x7d" version)
    "\x7bllvm_package\x7d" llvm_package

/-- One artifact package of the platform table: output archive name
template and the ordered relative file paths to copy. -/
structure PackageSpec where
  name : String
  files_to_copy : List String
  deriving DecidableEq, Repr

/-- One entry of LLVM_DOWNLOAD_DATA. -/
structure DownloadData where
  url : String
  format : String
  llvm_package : String
  clangd_package : PackageSpec
  libclang_package : PackageSpec
  deriving DecidableEq, Repr

/-- The command-line arguments of upload_clang.py that the pipeline
reads. -/
structure Args where
  version : String
  from_cache : Option String
  no_upload : Bool
  keep_temp : Bool
  only : Option (List String)
  deriving Repr

/-- External collaborators of upload_clang.py: the network, the local
cache files and the archive decoders.  decode stands for
lzma.decompress plus reading the tar members (member name paired with
content); extract7z stands for the 7-Zip subprocess; both may fail with
any Python error kind. -/
structure Env where
  download : String → Except PyErr Bytes
  decode : Bytes → Except PyErr (List (String × Bytes))
  readCache : String → Except PyErr Bytes
  writeCache : String → Bytes → Except PyErr Unit
  cacheHas : String → Bool
  extract7z : String → String → FS → Except PyErr (String × FS)
  license : Except PyErr Bytes

/-- ExtractLZMA/ExtractTar: decode the bytes, extract every member
below the destination and return the directory named by the first
component of the first member. -/
def ExtractLZMA (env : Env) (data : Bytes) (destination : String) (fs : FS) :
    Except PyErr (String × FS) :=
  match env.decode data with
  | .error e => .error e
  | .ok members =>
    match members with
    | [] => .error .indexError
    | (n0, _) :: _ =>
      let fs2 := members.foldl
        (fun acc m => addFile acc (destination ++ "/" ++ m.1) m.2) fs
      .ok (destination ++ "/" ++ firstComponent n0, fs2)

/-- The fallback path of PrepareBundleBuiltIn: download, write the
cache copy when a cache directory is configured (the IOError printer of
that write itself raises AttributeError on Python 3), then extract. -/
def PrepareFallback (env : Env)
    (extract_fun : Bytes → String → FS → Except PyErr (String × FS))
    (cache_dir : Option String) (llvm_package download_url temp_dir : String)
    (fs : FS) : Except PyErr (String × FS) × List Ev :=
  match env.download download_url with
  | .error e => (.error e, [Ev.download download_url])
  | .ok data =>
    let wr : Except PyErr Unit :=
      match cache_dir with
      | none => .ok ()
      | some cd =>
        match env.writeCache (cd ++ "/" ++ llvm_package) data with
        | .ok _ => .ok ()
        | .error (.ioError _) => .error .attributeError
        | .error e => .error e
    match wr with
    | .error e => (.error e, [Ev.download download_url])
    | .ok _ =>
      match extract_fun data temp_dir fs with
      | .ok res => (.ok res, [Ev.download download_url])
      | .error e => (.error e, [Ev.download download_url])

/-- The try block over the cached archive: open and read the cache
file, then extract the bytes read. -/
def cacheAttempt (env : Env)
    (extract_fun : Bytes → String → FS → Except PyErr (String × FS))
    (cd llvm_package temp_dir : String) (fs : FS) :
    Except PyErr (String × FS) :=
  match env.readCache (cd ++ "/" ++ llvm_package) with
  | .error e => .error e
  | .ok b => extract_fun b temp_dir fs

/-- PrepareBundleBuiltIn: when a cache directory is configured, open
and read the cached archive and extract it, treating any IOError of
that whole block as a cache miss (pass); any other error of the block
propagates.  Only when no package directory was obtained is the
download fallback taken. -/
def PrepareBundleBuiltIn (env : Env)
    (extract_fun : Bytes → String → FS → Except PyErr (String × FS))
    (cache_dir : Option String) (llvm_package download_url temp_dir : String)
    (fs : FS) : Except PyErr (String × FS) × List Ev :=
  let cached : Option (Except PyErr (String × FS)) :=
    match cache_dir with
    | none => none
    | some cd => some (cacheAttempt env extract_fun cd llvm_package temp_dir fs)
  match cached with
  | some (.ok res) => (.ok res, [])
  | some (.error (.ioError _)) =>
    PrepareFallback env extract_fun cache_dir llvm_package download_url temp_dir fs
  | some (.error e) => (.error e, [])
  | none =>
    PrepareFallback env extract_fun cache_dir llvm_package download_url temp_dir fs

/-- PrepareBundleNSIS: reuse a cached installer when present, otherwise
download and write it (to the cache when configured, else to the temp
directory), then extract with the external 7-Zip tool. -/
def PrepareBundleNSIS (env : Env) (cache_dir : Option String)
    (llvm_package download_url temp_dir : String) (fs : FS) :
    Except PyErr (String × FS) × List Ev :=
  let cachedPath : Option String :=
    match cache_dir with
    | none => none
    | some cd =>
      if env.cacheHas (cd ++ "/" ++ llvm_package) then
        some (cd ++ "/" ++ llvm_package)
      else
        none
  match cachedPath with
  | some archive => (env.extract7z archive temp_dir fs, [])
  | none =>
    match env.download download_url with
    | .error e => (.error e, [Ev.download download_url])
    | .ok data =>
      let dest_dir := match cache_dir with
        | some cd => cd
        | none => temp_dir
      let archive := dest_dir ++ "/" ++ llvm_package
      match env.writeCache archive data with
      | .error e => (.error e, [Ev.download download_url])
      | .ok _ => (env.extract7z archive temp_dir fs, [Ev.download download_url])

/-- The file loop of MakeBundle: format each relative path with the
version, check existence below the source directory, and collect the
archive entries under their normalized names (the relative path itself,
independent of the source directory). -/
def MakeBundleFiles (files : List String) (source_dir version : String)
    (fs : FS) : Except PyErr (List (String × Bytes)) :=
  match files with
  | [] => .ok []
  | item :: rest =>
    let source_file_name := itemFormat item version
    let name := source_dir ++ "/" ++ source_file_name
    match lookupFS fs name with
    | none => .error (.runtimeError ("File " ++ name ++ " does not exist."))
    | some b =>
      match MakeBundleFiles rest source_dir version fs with
      | .ok es => .ok ((source_file_name, b) :: es)
      | .error e => .error e

/-- MakeBundle: the produced archive, as its ordered entry list — the
license file under the fixed name LICENSE.TXT followed by the package
files in spec order.  The archive bytes (and hence the SHA-256 digest
computed over them) are a function of this entry list alone;
bundle_file_name only names the output file. -/
def MakeBundle (files_to_copy : List String)
    (license_file_name source_dir bundle_file_name version : String)
    (fs : FS) : Except PyErr (List (String × Bytes)) :=
  match lookupFS fs license_file_name with
  | none => .error (.ioError ("No such file: " ++ license_file_name))
  | some lic =>
    match MakeBundleFiles files_to_copy source_dir version fs with
    | .ok es => .ok (("LICENSE.TXT", lic) :: es)
    | .error e => .error e

/-- UploadBundleToGithub of upload_clang.py: list releases, take the
stripped upload endpoint of the last release whose tag equals the
version, exit when there is none, then PUT the bundle; a non-2xx on the
PUT raises through raise_for_status. -/
def UploadBundleToGithub (version bundle_file_name : String) (reg : Registry) :
    Except PyErr Registry × List Ev :=
  let upload_url := reg.releases.foldl
    (fun acc r => if r.tag_name != version then acc else some (stripUrl r.upload_url))
    none
  match upload_url with
  | none =>
    (.error (.systemExit ("Release " ++ version ++ " not published yet.")),
     [Ev.getReleases])
  | some uu =>
    let aname := basename bundle_file_name
    match uploadAssetR reg uu aname with
    | .ok reg2 => (.ok reg2, [Ev.getReleases, Ev.uploadAsset uu aname])
    | .error st => (.error (.httpError st), [Ev.getReleases, Ev.uploadAsset uu aname])

/-- Run state threaded through the pipeline: filesystem, registry,
event trace, and the checksum report mapping (archive name to archive
content, of which the printed SHA-256 is a function). -/
structure St where
  fs : FS
  reg : ReleasePipe.Registry
  evs : List ReleasePipe.Ev
  hashes : List (String × List (String × ReleasePipe.Bytes))
  deriving Repr, DecidableEq

/-- The state update after a successful MakeBundle of one package:
record the checksum, then delete the extracted tree unless keep_temp
(the cleanup that runs inside the package loop). -/
def bundleStep (args : Args) (package_dir : String) (archive_name : String)
    (entries : List (String × Bytes)) (st : St) : St :=
  let st1 := { st with hashes := updateAssoc st.hashes archive_name entries }
  if args.keep_temp then st1 else { st1 with fs := removeTree st1.fs package_dir }

/-- The per-package loop of BundleAndUpload: bundle, record the
checksum, delete the extracted tree unless keep_temp, then upload
unless no_upload.  Any failure stops the loop and is reported with the
state reached so far. -/
def MakeBundleLoop (args : Args) (os_name output_dir package_dir license_file_name : String) :
    List PackageSpec → St → St × Option PyErr
  | [], st => (st, none)
  | spec :: rest, st =>
    let archive_name := pkgFormat spec.name os_name args.version
    let archive_path := output_dir ++ "/" ++ archive_name
    match MakeBundle spec.files_to_copy license_file_name package_dir archive_path
        args.version st.fs with
    | .error e => (st, some e)
    | .ok entries =>
      let st2 := bundleStep args package_dir archive_name entries st
      if args.no_upload then
        MakeBundleLoop args os_name output_dir package_dir license_file_name rest st2
      else
        match UploadBundleToGithub args.version archive_path st2.reg with
        | (.ok reg2, uevs) =>
          MakeBundleLoop args os_name output_dir package_dir license_file_name rest
            { st2 with reg := reg2, evs := st2.evs ++ uevs }
        | (.error e, uevs) =>
          ({ st2 with evs := st2.evs ++ uevs }, some e)

/-- The preparation part of BundleAndUpload: format the package name
and the url, then fetch and extract by archive format. -/
def PrepareStep (args : Args) (env : Env) (temp_dir os_name : String)
    (dd : DownloadData) (st : St) : Except PyErr (String × FS) × List Ev :=
  let llvm_package := pkgFormat dd.llvm_package os_name args.version
  let download_url := urlFormat dd.url args.version llvm_package
  let temp_dir2 := temp_dir ++ "/" ++ os_name
  if dd.format = "lzma" then
    PrepareBundleBuiltIn env (ExtractLZMA env) args.from_cache llvm_package
      download_url temp_dir2 st.fs
  else if dd.format = "nsis" then
    PrepareBundleNSIS env args.from_cache llvm_package download_url temp_dir2 st.fs
  else
    (.error (.assertionError ("Format not yet implemented: " ++ dd.format)), [])

/-- BundleAndUpload: prepare (fetch and extract) by format, treat an
HTTP 404 of the preparation as a logged skip, re-raise any other
HTTPError, and run the package loop over the libclang and clangd
packages of the platform. -/
def BundleAndUpload (args : Args) (env : Env)
    (temp_dir output_dir os_name : String) (dd : DownloadData)
    (license_file_name : String) (st : St) : St × Option PyErr :=
  match PrepareStep args env temp_dir os_name dd st with
  | (.error (.httpError status), pevs) =>
    if status != 404 then
      ({ st with evs := st.evs ++ pevs }, some (.httpError status))
    else
      ({ st with evs := st.evs ++ pevs }, none)
  | (.error e, pevs) => ({ st with evs := st.evs ++ pevs }, some e)
  | (.ok (package_dir, fs2), pevs) =>
    MakeBundleLoop args os_name output_dir package_dir license_file_name
      [dd.libclang_package, dd.clangd_package]
      { st with fs := fs2, evs := st.evs ++ pevs }

/-- not args.only or os_name in args.only, the platform filter. -/
def onlyAllows (args : Args) (os_name : String) : Bool :=
  match args.only with
  | none => true
  | some l => l.contains os_name

/-- The platform loop of Main: process each platform in table order,
honoring the only filter; a platform failure aborts the loop with the
remaining platforms unprocessed. -/
def MainLoop (args : Args) (env : Env) (temp_dir output_dir license_file_name : String) :
    List (String × DownloadData) → St → St × Option PyErr
  | [], st => (st, none)
  | (os_name, dd) :: rest, st =>
    if onlyAllows args os_name then
      match BundleAndUpload args env temp_dir output_dir os_name dd license_file_name st with
      | (st2, none) => MainLoop args env temp_dir output_dir license_file_name rest st2
      | (st2, some e) => (st2, some e)
    else
      MainLoop args env temp_dir output_dir license_file_name rest st

/-- LLVM_DOWNLOAD_DATA, the per-platform configuration table. -/
def LLVM_DOWNLOAD_DATA : List (String × DownloadData) :=
  let llvmOrgUrl :=
    "https://github.com/llvm/llvm-project/releases/download/llvmorg-\x7bllvm_version\x7d/\x7bllvm_package\x7d"
  let winData : DownloadData :=
    { url := llvmOrgUrl
      format := "nsis"
      llvm_package := "LLVM-\x7bllvm_version\x7d-\x7bos_name\x7d.exe"
      clangd_package :=
        { name := "clangd-\x7bllvm_version\x7d-\x7bos_name\x7d.tar.bz2"
          files_to_copy := ["bin/clangd.exe"] }
      libclang_package :=
        { name := "libclang-\x7bllvm_version\x7d-\x7bos_name\x7d.tar.bz2"
          files_to_copy := ["bin/libclang.dll", "lib/libclang.lib"] } }
  let elfData : DownloadData :=
    { url := llvmOrgUrl
      format := "lzma"
      llvm_package := "clang+llvm-\x7bllvm_version\x7d-\x7bos_name\x7d.tar.xz"
      clangd_package :=
        { name := "clangd-\x7bllvm_version\x7d-\x7bos_name\x7d.tar.bz2"
          files_to_copy := ["bin/clangd"] }
      libclang_package :=
        { name := "libclang-\x7bllvm_version\x7d-\x7bos_name\x7d.tar.bz2"
          files_to_copy :=
            ["lib/libclang.so", "lib/libclang.so.\x7bllvm_version:.2\x7d"] } }
  [ ("win32", winData),
    ("win64", winData),
    ("x86_64-apple-darwin",
      { elfData with
        libclang_package :=
          { name := "libclang-\x7bllvm_version\x7d-\x7bos_name\x7d.tar.bz2"
            files_to_copy := ["lib/libclang.dylib"] } }),
    ("x86_64-unknown-linux-gnu",
      { elfData with url :=
          "https://github.com/ycm-core/llvm/releases/download/\x7bllvm_version\x7d/\x7bllvm_package\x7d" }),
    ("i386-unknown-freebsd11", elfData),
    ("amd64-unknown-freebsd11", elfData),
    ("aarch64-linux-gnu", elfData),
    ("armv7a-linux-gnueabihf", elfData) ]

/-- Main of upload_clang.py: download the license into the shared temp
directory, then drive every platform of the table through
BundleAndUpload. -/
def Main (args : Args) (env : Env) (reg : ReleasePipe.Registry) : St × Option PyErr :=
  let temp_dir := "/tmp/work"
  let output_dir := "/out"
  let licenseUrl := "https://releases.llvm.org/" ++ args.version ++ "/LICENSE.TXT"
  match env.license with
  | .error e => ({ fs := [], reg := reg, evs := [Ev.download licenseUrl], hashes := [] }, some e)
  | .ok lic =>
    let license_file_name := temp_dir ++ "/LICENSE.TXT"
    let st0 : St :=
      { fs := [(license_file_name, lic)], reg := reg,
        evs := [Ev.download licenseUrl], hashes := [] }
    MainLoop args env temp_dir output_dir license_file_name LLVM_DOWNLOAD_DATA st0

end UploadClang

namespace PackageLlvm

open ReleasePipe

/-- RETRY_INTERVAL of package_llvm.py, the fixed backoff in seconds. -/
def RETRY_INTERVAL : Nat := 10

/-- One attempt of the function wrapped by Retries. -/
inductive CallResult where
  | ok
  | exitE (msg : String)
  deriving DecidableEq, Repr

/-- The loop of Retries: call the function; on success return True; on
SystemExit count the retry, abort with the final message once the
count exceeds max_retries, else sleep RETRY_INTERVAL and try again.
The result also carries the number of attempts made and the number of
sleeps taken. -/
def RetriesAux (f : Nat → CallResult) (max_retries : Nat) (attempt nb_retries : Nat) :
    Except String Bool × Nat × Nat :=
  match f attempt with
  | .ok => (.ok true, attempt + 1, 0)
  | .exitE _ =>
    if h : nb_retries + 1 > max_retries then
      (.error ("Number of retries exceeded (" ++ toString max_retries ++ "). Aborting."),
       attempt + 1, 0)
    else
      let r := RetriesAux f max_retries (attempt + 1) (nb_retries + 1)
      (r.1, r.2.1, r.2.2 + 1)
  termination_by max_retries + 1 - nb_retries
  decreasing_by omega

/-- Retries with the hard-coded max_retries = 3 of the source. -/
def Retries (f : Nat → CallResult) : Except String Bool × Nat × Nat :=
  RetriesAux f 3 0 0

/-- Is a character one of the digits the regex class \d matches. -/
def isDigitC (c : Char) : Bool :=
  '0' ≤ c && c ≤ '9'

mutual

/-- Does the char list match the regex fragment (.\d+)*$ entirely. -/
def groupsMatch : List Char → Bool
  | [] => true
  | _ :: rest => digitsPlus rest

/-- Does the char list split as one-or-more digits followed by more
(.\d+) groups, matching to the end. -/
def digitsPlus : List Char → Bool
  | [] => false
  | c :: rest => isDigitC c && (groupsMatch rest || digitsPlus rest)

end

/-- Scan for an occurrence of .so after which (.\d+)*$ matches, which
is exactly re.match of the pattern .*\.so(.\d+)*$ at any position. -/
def soScan : List Char → Bool
  | [] => false
  | '.' :: 's' :: 'o' :: r2 => groupsMatch r2 || soScan ('s' :: 'o' :: r2)
  | _ :: rest => soScan rest

/-- SHARED_LIBRARY_REGEX.match(filename). -/
def SHARED_LIBRARY_MATCH (filename : String) : Bool :=
  soScan filename.toList

/-- The chmod applied by BundleLlvm to a shared-library file: add each
execute bit whose corresponding read bit is already set. -/
def chmodNewMode (mode : Nat) : Nat :=
  mode ||| ((mode &&& 0o444) >>> 2)

/-- The per-file mode after the walk of BundleLlvm: shared-library
files get the chmod, all other files keep their mode. -/
def BundleLlvmFileMode (filename : String) (mode : Nat) : Nat :=
  if SHARED_LIBRARY_MATCH filename then chmodNewMode mode else mode

/-- The file-mode effect of the whole BundleLlvm walk over the install
tree, as a map over (file name, stat mode) pairs. -/
def BundleLlvmWalk (files : List (String × Nat)) : List (String × Nat) :=
  files.map (fun p => (p.1, BundleLlvmFileMode p.1 p.2))

end PackageLlvm

instance {ε α : Type} [DecidableEq ε] [DecidableEq α] : DecidableEq (Except ε α) := fun
  | .ok a, .ok b => decidable_of_iff (a = b) (by simp)
  | .ok _, .error _ => isFalse (by simp)
  | .error _, .ok _ => isFalse (by simp)
  | .error a, .error b => decidable_of_iff (a = b) (by simp)

namespace Fixture

open ReleasePipe UploadClang

/-- Environment with a readable cache entry, a fixed download and an
extractable payload shaped like a clang+llvm archive. -/
def envCache : Env :=
  { download := fun _ => .ok "FRESH"
    decode := fun _ => .ok [("root/x", "X")]
    readCache := fun _ => .ok "CACHEDBYTES"
    writeCache := fun _ _ => .ok ()
    cacheHas := fun _ => false
    extract7z := fun _ _ fs => .ok ("x", fs)
    license := .ok "LIC" }

/-- Extraction failing with an I/O error, as when the disk fills while
the tar members are written. -/
def extractDiskFull : Bytes → String → FS → Except PyErr (String × FS) :=
  fun _ _ _ => .error (.ioError "No space left on device")

/-- Extraction failing with a decode error on a corrupt archive. -/
def extractCorrupt : Bytes → String → FS → Except PyErr (String × FS) :=
  fun _ _ _ => .error (.lzmaError "Corrupt input data")

/-- The libclang file list of the linux platform entry. -/
def cFiles : List String :=
  ["lib/libclang.so", "lib/libclang.so.\x7bllvm_version:.2\x7d"]

/-- Contents keyed by relative path for the two bundling runs. -/
def cG : String → Bytes :=
  fun it => if it = "lib/libclang.so" then "SO" else "SO10"

/-- Source tree for the first bundling run, below /a/root. -/
def fsA : FS :=
  [("/t1/LICENSE.TXT", "L"),
   ("/a/root/lib/libclang.so", "SO"),
   ("/a/root/lib/libclang.so.10", "SO10")]

/-- The same source files for the second run, below /b/source. -/
def fsB : FS :=
  [("/t2/LICENSE.TXT", "L"),
   ("/b/source/lib/libclang.so", "SO"),
   ("/b/source/lib/libclang.so.10", "SO10")]

/-- An older release of the registry, with one asset. -/
def relOld : Release :=
  { tag_name := "9.0.0"
    upload_url :=
      "https://uploads.github.test/repos/ycm-core/llvm/releases/9.0.0/assets\x7b?name,label\x7d"
    assets := [{ name := "clang+llvm-9.0.0-x86_64-unknown-linux-gnu.tar.xz", id := 3 }]
    title := "LLVM and Clang 9.0.0"
    body := "LLVM and Clang 9.0.0 without realtime, terminfo, and zlib dependencies."
    prerelease := false }

/-- The release of the current version, already carrying an asset with
the bundle name (the re-run scenario). -/
def relA : Release :=
  { tag_name := "10.0.0"
    upload_url :=
      "https://uploads.github.test/repos/ycm-core/llvm/releases/10.0.0/assets\x7b?name,label\x7d"
    assets := [{ name := "clang+llvm-10.0.0-x86_64-unknown-linux-gnu.tar.xz", id := 7 }]
    title := "LLVM and Clang 10.0.0"
    body := "LLVM and Clang 10.0.0 without realtime, terminfo, and zlib dependencies."
    prerelease := false }

/-- A well-formed registry listing holding both releases. -/
def regWF : Registry := { releases := [relOld, relA], nextId := 10 }

/-- package_llvm arguments for a plain 10.0.0 release. -/
def argsPL : PackageLlvm.Args := { version := "10.0.0", release_candidate := none }

/-- package_llvm arguments for release candidate 1 of 11.0.0. -/
def argsRC : PackageLlvm.Args := { version := "11.0.0", release_candidate := some 1 }

/-- The bundle path whose basename equals the existing asset name. -/
def bundlePath : String :=
  "/build/clang+llvm-10.0.0-x86_64-unknown-linux-gnu.tar.xz"

/-- A bundle path for the not-yet-released candidate version. -/
def bundlePathRC : String :=
  "/build/clang+llvm-11.0.0-rc1-x86_64-unknown-linux-gnu.tar.xz"

/-- A registry holding only the 10.0.0 release with no assets yet, as
after package_llvm published the release. -/
def regRel : Registry :=
  { releases :=
      [ { tag_name := "10.0.0"
          upload_url :=
            "https://uploads.github.test/repos/ycm-core/llvm/releases/10.0.0/assets\x7b?name,label\x7d"
          assets := []
          title := "LLVM and Clang 10.0.0"
          body := "LLVM and Clang 10.0.0 without realtime, terminfo, and zlib dependencies."
          prerelease := false } ]
    nextId := 1 }

/-- upload_clang arguments: version 10.0.0, no cache, uploads on, the
temp tree deleted as the run goes, restricted to the two lzma linux
platforms. -/
def argsUC : UploadClang.Args :=
  { version := "10.0.0", from_cache := none, no_upload := false,
    keep_temp := false,
    only := some ["x86_64-unknown-linux-gnu", "aarch64-linux-gnu"] }

/-- The extracted payload of a full clang+llvm archive. -/
def payloadFull : List (String × Bytes) :=
  [ ("root/bin/clangd", "CLD"),
    ("root/lib/libclang.so", "SO"),
    ("root/lib/libclang.so.10", "SO10") ]

/-- Environment where every download succeeds and decodes to the full
payload. -/
def envFull : UploadClang.Env :=
  { download := fun _ => .ok "BLOB"
    decode := fun _ => .ok payloadFull
    readCache := fun _ => .error (.ioError "missing")
    writeCache := fun _ _ => .ok ()
    cacheHas := fun _ => false
    extract7z := fun _ _ fs => .ok ("seven", fs)
    license := .ok "LIC" }

/-- The download url of the x86_64 linux platform for 10.0.0. -/
def urlLinux : String :=
  "https://github.com/ycm-core/llvm/releases/download/10.0.0/clang+llvm-10.0.0-x86_64-unknown-linux-gnu.tar.xz"

/-- Environment where the x86_64 linux package answers 404 and every
other download succeeds. -/
def env404 : UploadClang.Env :=
  { envFull with download := fun u =>
      if u = urlLinux then .error (.httpError 404) else .ok "BLOB" }

/-- An extracted payload lacking bin/clangd. -/
def payloadNoClangd : List (String × Bytes) :=
  [("root/lib/libclang.so", "SO"), ("root/lib/libclang.so.10", "SO10")]

/-- Environment where the extracted payload lacks bin/clangd. -/
def envNoClangd : UploadClang.Env :=
  { envFull with decode := fun _ => Except.ok payloadNoClangd }

/-- An extracted payload lacking the libclang libraries. -/
def payloadOnlyClangd : List (String × Bytes) :=
  [("root/bin/clangd", "CLD")]

/-- Environment where the extracted payload lacks lib/libclang.so. -/
def envNoLib : UploadClang.Env :=
  { envFull with decode := fun _ => Except.ok payloadOnlyClangd }

/-- The x86_64 linux entry of the platform table, spelled out. -/
def ddLinux : UploadClang.DownloadData :=
  ((UploadClang.LLVM_DOWNLOAD_DATA.find?
    (fun p => p.1 = "x86_64-unknown-linux-gnu")).get (by decide)).2

/-- The run state right after the license download of Main. -/
def st0 : UploadClang.St :=
  { fs := [("/tmp/work/LICENSE.TXT", "LIC")], reg := regRel, evs := [], hashes := [] }

/-- upload_clang arguments restricted to the x86_64 linux platform. -/
def argsC3 : UploadClang.Args :=
  { argsUC with only := some ["x86_64-unknown-linux-gnu"] }

/-- The same restricted arguments with the temp tree kept. -/
def argsKT : UploadClang.Args :=
  { argsC3 with keep_temp := true }

/-- The win32 entry of the platform table (nsis format). -/
def ddWin : UploadClang.DownloadData :=
  ((UploadClang.LLVM_DOWNLOAD_DATA.find? (fun p => p.1 = "win32")).get (by decide)).2

/-- The download url of the win32 installer for 10.0.0. -/
def urlWin32 : String :=
  "https://github.com/llvm/llvm-project/releases/download/llvmorg-10.0.0/LLVM-10.0.0-win32.exe"

/-- upload_clang arguments with a cache directory configured and no
platform filter. -/
def argsWin : UploadClang.Args :=
  { version := "10.0.0", from_cache := some "/cache", no_upload := false,
    keep_temp := false, only := none }

/-- Environment where the win32 installer answers 404, every other
download succeeds, and no archive is in the cache. -/
def env404win : UploadClang.Env :=
  { envFull with download := fun u =>
      if u = urlWin32 then .error (.httpError 404) else .ok "BLOB" }

end Fixture

/-
Theorems.  Each claim Cn is settled by one theorem named after it;
helper lemmas sit before the claim theorems that use them.
-/

namespace PackageLlvm

open ReleasePipe

theorem chmodNewMode_testBit_six (mode : Nat) :
    (chmodNewMode mode).testBit 6 = (mode.testBit 6 || mode.testBit 8) := by
  have h : Nat.testBit 292 8 = true := by decide
  simp [chmodNewMode, Nat.testBit_or, Nat.testBit_and, Nat.testBit_shiftRight, h]

theorem RetriesAux_ok {f : Nat → CallResult} {m a n : Nat}
    (h : f a = .ok) : RetriesAux f m a n = (.ok true, a + 1, 0) := by
  conv_lhs => unfold RetriesAux
  simp [h]

theorem RetriesAux_exit_stop {f : Nat → CallResult} {m a n : Nat} {msg : String}
    (hf : f a = .exitE msg) (h : m < n + 1) :
    RetriesAux f m a n =
      (.error ("Number of retries exceeded (" ++ toString m ++ "). Aborting."),
       a + 1, 0) := by
  conv_lhs => unfold RetriesAux
  simp [hf, h]

theorem RetriesAux_exit_go {f : Nat → CallResult} {m a n : Nat} {msg : String}
    (hf : f a = .exitE msg) (h : ¬ m < n + 1) :
    RetriesAux f m a n =
      ((RetriesAux f m (a + 1) (n + 1)).1,
       (RetriesAux f m (a + 1) (n + 1)).2.1,
       (RetriesAux f m (a + 1) (n + 1)).2.2 + 1) := by
  conv_lhs => unfold RetriesAux
  simp [hf, h]

end PackageLlvm

/-- Claim C9: during install-tree bundling (BundleLlvm), a file whose
name matches the shared-library pattern has each execute bit added
exactly when the matching read bit is set; in particular the user
execute bit is added only if the file is user-readable, a
non-user-readable shared library keeps its user execute bit unchanged,
and a non-matching file keeps its mode unchanged. -/
theorem c9_shared_library_chmod (filename : String) (mode : Nat) :
    (PackageLlvm.SHARED_LIBRARY_MATCH filename = true →
      PackageLlvm.BundleLlvmFileMode filename mode
          = (mode ||| ((mode &&& 0o444) >>> 2)) ∧
      (mode.testBit 8 = false →
        (PackageLlvm.BundleLlvmFileMode filename mode).testBit 6 = mode.testBit 6) ∧
      ((PackageLlvm.BundleLlvmFileMode filename mode).testBit 6 = true →
        mode.testBit 6 = true ∨ mode.testBit 8 = true)) ∧
    (PackageLlvm.SHARED_LIBRARY_MATCH filename = false →
      PackageLlvm.BundleLlvmFileMode filename mode = mode) ∧
    PackageLlvm.BundleLlvmWalk [(filename, mode)]
        = [(filename, PackageLlvm.BundleLlvmFileMode filename mode)] := by
  refine ⟨fun h => ?_, fun h => ?_, rfl⟩
  · have hm : PackageLlvm.BundleLlvmFileMode filename mode
        = PackageLlvm.chmodNewMode mode := by
      simp [PackageLlvm.BundleLlvmFileMode, h]
    refine ⟨hm, fun h8 => ?_, fun h6 => ?_⟩
    · rw [hm, PackageLlvm.chmodNewMode_testBit_six, h8, Bool.or_false]
    · rw [hm, PackageLlvm.chmodNewMode_testBit_six] at h6
      rcases Bool.or_eq_true_iff.mp h6 with h | h
      · exact Or.inl h
      · exact Or.inr h
  · simp [PackageLlvm.BundleLlvmFileMode, h]

/-- Witness for C9 at a concrete shared library and a concrete other
file: mode 0o644 becomes 0o755 for libclang.so.10 and stays 0o644 for
clangd. -/
theorem c9_shared_library_chmod_app :
    PackageLlvm.BundleLlvmFileMode "libclang.so.10" 0o644 = 0o755 ∧
    PackageLlvm.BundleLlvmFileMode "clangd" 0o644 = 0o644 := by
  constructor
  · have h := (c9_shared_library_chmod "libclang.so.10" 0o644).1 (by decide)
    rw [h.1]
    decide
  · exact (c9_shared_library_chmod "clangd" 0o644).2.1 (by decide)

/-- Claim C8: the retry wrapper returns immediately on a first-attempt
success, never makes more than max_retries + 1 = 4 attempts, and when
every attempt signals SystemExit it aborts with the final explicit
error after exactly 4 attempts and 3 sleeps of the fixed interval. -/
theorem c8_retries_bounded (f : Nat → PackageLlvm.CallResult) :
    (f 0 = .ok → PackageLlvm.Retries f = (.ok true, 1, 0)) ∧
    ((PackageLlvm.Retries f).2.1 ≤ 4) ∧
    ((∀ k, k ≤ 3 → f k ≠ .ok) →
      PackageLlvm.Retries f =
        (.error "Number of retries exceeded (3). Aborting.", 4, 3)) := by
  constructor
  · intro h0
    exact PackageLlvm.RetriesAux_ok h0
  constructor
  · rcases h0 : f 0 with _ | m0
    · rw [PackageLlvm.Retries, PackageLlvm.RetriesAux_ok h0]
      simp
    · rw [PackageLlvm.Retries, PackageLlvm.RetriesAux_exit_go h0 (by omega)]
      rcases h1 : f 1 with _ | m1
      · rw [PackageLlvm.RetriesAux_ok h1]
        simp
      · rw [PackageLlvm.RetriesAux_exit_go h1 (by omega)]
        rcases h2 : f 2 with _ | m2
        · rw [PackageLlvm.RetriesAux_ok h2]
          simp
        · rw [PackageLlvm.RetriesAux_exit_go h2 (by omega)]
          rcases h3 : f 3 with _ | m3
          · rw [PackageLlvm.RetriesAux_ok h3]
          · rw [PackageLlvm.RetriesAux_exit_stop h3 (by omega)]
  · intro hall
    have h0 : ∃ m, f 0 = .exitE m := by
      rcases h : f 0 with _ | m
      · exact absurd h (hall 0 (by omega))
      · exact ⟨m, rfl⟩
    have h1 : ∃ m, f 1 = .exitE m := by
      rcases h : f 1 with _ | m
      · exact absurd h (hall 1 (by omega))
      · exact ⟨m, rfl⟩
    have h2 : ∃ m, f 2 = .exitE m := by
      rcases h : f 2 with _ | m
      · exact absurd h (hall 2 (by omega))
      · exact ⟨m, rfl⟩
    have h3 : ∃ m, f 3 = .exitE m := by
      rcases h : f 3 with _ | m
      · exact absurd h (hall 3 (by omega))
      · exact ⟨m, rfl⟩
    obtain ⟨m0, h0⟩ := h0
    obtain ⟨m1, h1⟩ := h1
    obtain ⟨m2, h2⟩ := h2
    obtain ⟨m3, h3⟩ := h3
    rw [PackageLlvm.Retries, PackageLlvm.RetriesAux_exit_go h0 (by omega),
      PackageLlvm.RetriesAux_exit_go h1 (by omega),
      PackageLlvm.RetriesAux_exit_go h2 (by omega),
      PackageLlvm.RetriesAux_exit_stop h3 (by omega)]
    simp
    rfl

/-- Witness for C8: immediate success and an always-failing operation
at concrete functions. -/
theorem c8_retries_bounded_app :
    PackageLlvm.Retries (fun _ => .ok) = (.ok true, 1, 0) ∧
    PackageLlvm.Retries (fun _ => .exitE "boom") =
      (.error "Number of retries exceeded (3). Aborting.", 4, 3) := by
  constructor
  · exact (c8_retries_bounded (fun _ => .ok)).1 rfl
  · exact (c8_retries_bounded (fun _ => .exitE "boom")).2.2 (fun k _ => by simp)

namespace UploadClang

open ReleasePipe

theorem PrepareFallback_trace (env : Env)
    (extract_fun : Bytes → String → FS → Except PyErr (String × FS))
    (cache_dir : Option String) (llvm_package download_url temp_dir : String)
    (fs : FS) :
    (PrepareFallback env extract_fun cache_dir llvm_package download_url temp_dir fs).2
      = [Ev.download download_url] := by
  unfold PrepareFallback
  rcases env.download download_url with e | data
  · rfl
  · rcases cache_dir with _ | cd
    · rcases hx : extract_fun data temp_dir fs with e | res <;> simp [hx]
    · rcases hw : env.writeCache (cd ++ "/" ++ llvm_package) data with e | u
      · rcases e <;> simp [hw]
      · rcases hx : extract_fun data temp_dir fs with e | res <;> simp [hw, hx]

end UploadClang

/-- Claim C10 (amended): with a cache directory configured, the
download fallback is taken exactly when the cached-archive block
(opening, reading, or extracting the cached bytes) fails with an
I/O error; any non-I/O failure of that block, such as a corrupt-archive
decode error, propagates and no download is attempted. -/
theorem c10_cache_fallback_amended (env : UploadClang.Env)
    (extract_fun : ReleasePipe.Bytes → String → ReleasePipe.FS →
      Except ReleasePipe.PyErr (String × ReleasePipe.FS))
    (cd llvm_package download_url temp_dir : String) (fs : ReleasePipe.FS) :
    ((∃ u, ReleasePipe.Ev.download u ∈
        (UploadClang.PrepareBundleBuiltIn env extract_fun (some cd) llvm_package
          download_url temp_dir fs).2) ↔
      (∃ m, UploadClang.cacheAttempt env extract_fun cd llvm_package temp_dir fs
        = .error (.ioError m))) ∧
    (∀ e, UploadClang.cacheAttempt env extract_fun cd llvm_package temp_dir fs = .error e →
      (∀ m, e ≠ ReleasePipe.PyErr.ioError m) →
      UploadClang.PrepareBundleBuiltIn env extract_fun (some cd) llvm_package
        download_url temp_dir fs = (.error e, [])) := by
  rcases hca : UploadClang.cacheAttempt env extract_fun cd llvm_package temp_dir fs
    with e | res
  · rcases e with m | st | m | m | m | m | _ | _
    · constructor
      · constructor
        · intro _
          exact ⟨m, rfl⟩
        · intro _
          have ht := UploadClang.PrepareFallback_trace env extract_fun (some cd)
            llvm_package download_url temp_dir fs
          simp only [UploadClang.PrepareBundleBuiltIn, hca, ht]
          exact ⟨download_url, by simp⟩
      · intro e he hne
        cases he
        exact absurd rfl (hne m)
    all_goals
      refine ⟨?_, ?_⟩
      · simp only [UploadClang.PrepareBundleBuiltIn, hca]
        simp
      · intro e he hne
        cases he
        simp [UploadClang.PrepareBundleBuiltIn, hca]
  · constructor
    · simp only [UploadClang.PrepareBundleBuiltIn, hca]
      simp
    · intro e he _
      cases he

/-- Witness for the amended C10 at a corrupt cached archive: the
cached bytes are read, decoding fails with a non-I/O error, the error
propagates and no download happens. -/
theorem c10_cache_fallback_amended_app :
    UploadClang.PrepareBundleBuiltIn Fixture.envCache Fixture.extractCorrupt
      (some "cache") "pkg.tar.xz" "http://downloads.test/pkg.tar.xz" "/tmp/t" []
      = (.error (.lzmaError "Corrupt input data"), []) :=
  (c10_cache_fallback_amended Fixture.envCache Fixture.extractCorrupt
      "cache" "pkg.tar.xz" "http://downloads.test/pkg.tar.xz" "/tmp/t" []).2
    (.lzmaError "Corrupt input data") rfl (fun m h => by cases h)

/-- Counterexample to C10 as stated: opening and reading the cached
archive succeed, extraction fails with an I/O error (not a read
failure), and the code still falls back to downloading — so the
fallback is not taken only on open/read I/O errors. -/
theorem c10_extract_io_error_downloads_cex :
    Fixture.envCache.readCache ("cache" ++ "/" ++ "pkg.tar.xz") = .ok "CACHEDBYTES" ∧
    (UploadClang.PrepareBundleBuiltIn Fixture.envCache Fixture.extractDiskFull
        (some "cache") "pkg.tar.xz" "http://downloads.test/pkg.tar.xz" "/tmp/t" []).2
      = [ReleasePipe.Ev.download "http://downloads.test/pkg.tar.xz"] := by
  constructor
  · rfl
  · rfl

namespace UploadClang

open ReleasePipe

theorem MakeBundleFiles_ok (files : List String) (d v : String) (fs : FS)
    (g : String → Bytes)
    (hall : ∀ it ∈ files, lookupFS fs (d ++ "/" ++ itemFormat it v) = some (g it)) :
    MakeBundleFiles files d v fs
      = .ok (files.map (fun it => (itemFormat it v, g it))) := by
  induction files with
  | nil => rfl
  | cons it rest ih =>
    have h1 := hall it (List.mem_cons_self it rest)
    have h2 : ∀ x ∈ rest, lookupFS fs (d ++ "/" ++ itemFormat x v) = some (g x) :=
      fun x hx => hall x (List.mem_cons_of_mem _ hx)
    simp [MakeBundleFiles, h1, ih h2]

end UploadClang

/-- Claim C6: bundling is deterministic — with identical spec, license
content and source-file contents, two runs produce the same archive
(hence the same SHA-256 digest over its bytes), whose entries are the
license under LICENSE.TXT followed by the spec files in spec order
under names independent of the source directory. -/
theorem c6_bundle_reproducible (files : List String)
    (lic1 lic2 d1 d2 b1 b2 v : String) (fs1 fs2 : ReleasePipe.FS)
    (L : ReleasePipe.Bytes) (g : String → ReleasePipe.Bytes)
    (h1 : ReleasePipe.lookupFS fs1 lic1 = some L)
    (h2 : ReleasePipe.lookupFS fs2 lic2 = some L)
    (hc1 : ∀ it ∈ files,
      ReleasePipe.lookupFS fs1 (d1 ++ "/" ++ UploadClang.itemFormat it v) = some (g it))
    (hc2 : ∀ it ∈ files,
      ReleasePipe.lookupFS fs2 (d2 ++ "/" ++ UploadClang.itemFormat it v) = some (g it)) :
    UploadClang.MakeBundle files lic1 d1 b1 v fs1
      = .ok (("LICENSE.TXT", L) ::
          files.map (fun it => (UploadClang.itemFormat it v, g it))) ∧
    UploadClang.MakeBundle files lic1 d1 b1 v fs1
      = UploadClang.MakeBundle files lic2 d2 b2 v fs2 := by
  have e1 : UploadClang.MakeBundle files lic1 d1 b1 v fs1
      = .ok (("LICENSE.TXT", L) ::
          files.map (fun it => (UploadClang.itemFormat it v, g it))) := by
    simp [UploadClang.MakeBundle, h1,
      UploadClang.MakeBundleFiles_ok files d1 v fs1 g hc1]
  have e2 : UploadClang.MakeBundle files lic2 d2 b2 v fs2
      = .ok (("LICENSE.TXT", L) ::
          files.map (fun it => (UploadClang.itemFormat it v, g it))) := by
    simp [UploadClang.MakeBundle, h2,
      UploadClang.MakeBundleFiles_ok files d2 v fs2 g hc2]
  exact ⟨e1, e1.trans e2.symm⟩

/-- Witness for C6: the libclang spec of the linux platform bundled
from two different absolute source directories gives the same archive. -/
theorem c6_bundle_reproducible_app :
    UploadClang.MakeBundle Fixture.cFiles "/t1/LICENSE.TXT" "/a/root"
        "/o/first.tar.bz2" "10.0.0" Fixture.fsA
      = UploadClang.MakeBundle Fixture.cFiles "/t2/LICENSE.TXT" "/b/source"
        "/o/second.tar.bz2" "10.0.0" Fixture.fsB :=
  (c6_bundle_reproducible Fixture.cFiles "/t1/LICENSE.TXT" "/t2/LICENSE.TXT"
      "/a/root" "/b/source" "/o/first.tar.bz2" "/o/second.tar.bz2" "10.0.0"
      Fixture.fsA Fixture.fsB "L" Fixture.cG
      (by decide) (by decide) (by decide) (by decide)).2

namespace ReleasePipe

theorem countNamed_append_one (xs : List Asset) (n : String) (i : Nat) :
    countNamed (xs ++ [{ name := n, id := i }]) n = countNamed xs n + 1 := by
  simp [countNamed, List.filter_append]

theorem countNamed_eq_zero (xs : List Asset) (n : String)
    (h : ∀ a ∈ xs, a.name ≠ n) : countNamed xs n = 0 := by
  simp only [countNamed, List.length_eq_zero, List.filter_eq_nil_iff]
  intro a ha
  simp [h a ha]

theorem findByUrl_append (l m : List Release) (url : String)
    (h : ∀ x ∈ l, stripUrl x.upload_url ≠ url) :
    findByUrl (l ++ m) url = findByUrl m url := by
  induction l with
  | nil => rfl
  | cons x rest ih =>
    have hx := h x (List.mem_cons_self x rest)
    have hrest : ∀ y ∈ rest, stripUrl y.upload_url ≠ url :=
      fun y hy => h y (List.mem_cons_of_mem _ hy)
    simp [findByUrl, hx, ih hrest]

theorem findByUrl_cons_hit (r : Release) (l : List Release) (url : String)
    (hr : stripUrl r.upload_url = url) :
    findByUrl (r :: l) url = some r := by
  simp [findByUrl, hr]

theorem addAssetTo_append (l m : List Release) (url : String) (a : Asset)
    (h : ∀ x ∈ l, stripUrl x.upload_url ≠ url) :
    addAssetTo (l ++ m) url a = (addAssetTo m url a).map (fun rs => l ++ rs) := by
  induction l with
  | nil => simp
  | cons x rest ih =>
    have hx := h x (List.mem_cons_self x rest)
    have hrest : ∀ y ∈ rest, stripUrl y.upload_url ≠ url :=
      fun y hy => h y (List.mem_cons_of_mem _ hy)
    simp [addAssetTo, hx, ih hrest, Option.map_map]
    rfl

theorem addAssetTo_cons_hit (r : Release) (l : List Release) (url : String) (a : Asset)
    (hr : stripUrl r.upload_url = url) :
    addAssetTo (r :: l) url a = some ({ r with assets := r.assets ++ [a] } :: l) := by
  simp [addAssetTo, hr]

theorem addAssetTo_tags (l : List Release) (url : String) (a : Asset) (l2 : List Release)
    (h : addAssetTo l url a = some l2) :
    l2.map (fun r => r.tag_name) = l.map (fun r => r.tag_name) := by
  induction l generalizing l2 with
  | nil => simp [addAssetTo] at h
  | cons x rest ih =>
    by_cases hx : stripUrl x.upload_url = url
    · rw [addAssetTo_cons_hit x rest url a hx] at h
      cases h
      simp
    · rcases hrec : addAssetTo rest url a with _ | rs2
      · rw [addAssetTo, if_neg hx, hrec] at h
        cases h
      · rw [addAssetTo, if_neg hx, hrec] at h
        simp only [Option.map_some'] at h
        cases h
        simp [ih rs2 hrec]

theorem uploadAssetR_split (reg : Registry) (l1 : List Release) (r : Release)
    (l2 : List Release) (url aname : String)
    (hsplit : reg.releases = l1 ++ r :: l2)
    (hl1 : ∀ x ∈ l1, stripUrl x.upload_url ≠ url)
    (hr : stripUrl r.upload_url = url)
    (hno : ∀ a ∈ r.assets, a.name ≠ aname) :
    uploadAssetR reg url aname =
      .ok { releases :=
              l1 ++ ({ r with assets := r.assets ++ [{ name := aname, id := reg.nextId }] }) :: l2,
            nextId := reg.nextId + 1 } := by
  have hfind : findByUrl reg.releases url = some r := by
    rw [hsplit, findByUrl_append l1 (r :: l2) url hl1, findByUrl_cons_hit r l2 url hr]
  have hany : r.assets.any (fun a => a.name = aname) = false := by
    simp only [List.any_eq_false]
    intro a ha
    simp [hno a ha]
  have hadd : addAssetTo reg.releases url { name := aname, id := reg.nextId }
      = some (l1 ++ ({ r with assets := r.assets ++ [{ name := aname, id := reg.nextId }] }) :: l2) := by
    rw [hsplit, addAssetTo_append l1 (r :: l2) url _ hl1,
      addAssetTo_cons_hit r l2 url _ hr]
    rfl
  simp [uploadAssetR, hfind, hany, hadd]

theorem uploadAssetR_tags (reg : Registry) (url aname : String) (reg2 : Registry)
    (h : uploadAssetR reg url aname = .ok reg2) :
    tagsOf reg2 = tagsOf reg := by
  unfold uploadAssetR at h
  split at h
  · cases h
  · split at h
    · cases h
    · split at h
      · rename_i rs hadd
        cases h
        exact addAssetTo_tags _ _ _ _ hadd
      · cases h

theorem map_eq_self_of {α : Type} (l : List α) (f : α → α)
    (h : ∀ x ∈ l, f x = x) : l.map f = l := by
  induction l with
  | nil => rfl
  | cons x rest ih =>
    simp only [List.map_cons, h x (List.mem_cons_self x rest),
      ih (fun y hy => h y (List.mem_cons_of_mem _ hy))]

theorem deleteAssetR_split (reg : Registry) (l1 : List Release) (r : Release)
    (l2 : List Release) (a : Asset)
    (hsplit : reg.releases = l1 ++ r :: l2)
    (ha : a ∈ r.assets)
    (hl1 : ∀ x ∈ l1, ∀ b ∈ x.assets, b.id ≠ a.id)
    (hl2 : ∀ x ∈ l2, ∀ b ∈ x.assets, b.id ≠ a.id) :
    deleteAssetR reg a.id =
      .ok { reg with releases :=
        l1 ++ ({ r with assets := r.assets.filter (fun b => ¬ b.id = a.id) }) :: l2 } := by
  have hcond : reg.releases.any (fun x => x.assets.any (fun b => b.id = a.id)) = true := by
    rw [hsplit]
    simp only [List.any_eq_true]
    exact ⟨r, by simp, a, ha, by simp⟩
  have hfix : ∀ (x : Release), (∀ b ∈ x.assets, b.id ≠ a.id) →
      { x with assets := x.assets.filter (fun b => ¬ b.id = a.id) } = x := by
    intro x hx
    have hfx : x.assets.filter (fun b => ¬ b.id = a.id) = x.assets := by
      rw [List.filter_eq_self]
      intro b hb
      simp [hx b hb]
    rw [hfx]
  have hmap : reg.releases.map
        (fun x => { x with assets := x.assets.filter (fun b => ¬ b.id = a.id) })
      = l1 ++ ({ r with assets := r.assets.filter (fun b => ¬ b.id = a.id) }) :: l2 := by
    rw [hsplit, List.map_append, List.map_cons,
      map_eq_self_of l1 _ (fun x hx => hfix x (hl1 x hx)),
      map_eq_self_of l2 _ (fun x hx => hfix x (hl2 x hx))]
  simp only [deleteAssetR, hcond, if_true, hmap]

end ReleasePipe

namespace PackageLlvm

open ReleasePipe

theorem scanReleases_skip_prefix (v n : String) (l1 rest : List Release)
    (uu : Option String) (reg : Registry) (evs : List Ev)
    (h : ∀ x ∈ l1, x.tag_name ≠ v) :
    scanReleases v n (l1 ++ rest) uu reg evs = scanReleases v n rest uu reg evs := by
  induction l1 generalizing uu reg evs with
  | nil => rfl
  | cons x xs ih =>
    have hx : (x.tag_name != v) = true := bne_iff_ne.mpr (h x (List.mem_cons_self x xs))
    have hxs : ∀ y ∈ xs, y.tag_name ≠ v := fun y hy => h y (List.mem_cons_of_mem _ hy)
    simp only [List.cons_append, scanReleases, hx, if_true]
    exact ih uu reg evs hxs

theorem scanReleases_skip (v n : String) (l : List Release)
    (uu : Option String) (reg : Registry) (evs : List Ev)
    (h : ∀ x ∈ l, x.tag_name ≠ v) :
    scanReleases v n l uu reg evs = (.ok (uu, reg), evs) := by
  have := scanReleases_skip_prefix v n l [] uu reg evs h
  simpa using this

theorem scanReleases_step_none (v n : String) (r : Release) (rest : List Release)
    (uu : Option String) (reg : Registry) (evs : List Ev)
    (htag : r.tag_name = v)
    (hfind : r.assets.find? (fun a => a.name = n) = none) :
    scanReleases v n (r :: rest) uu reg evs
      = scanReleases v n rest (some r.upload_url) reg evs := by
  simp [scanReleases, htag, hfind]

theorem scanReleases_step_del (v n : String) (r : Release) (rest : List Release)
    (uu : Option String) (reg : Registry) (evs : List Ev) (a : Asset) (reg2 : Registry)
    (htag : r.tag_name = v)
    (hfind : r.assets.find? (fun b => b.name = n) = some a)
    (hdel : deleteAssetR reg a.id = .ok reg2) :
    scanReleases v n (r :: rest) uu reg evs
      = scanReleases v n rest (some r.upload_url) reg2 (evs ++ [Ev.deleteAsset a.id]) := by
  simp [scanReleases, htag, hfind, hdel]

/-- Characterization of UploadLlvm when a release with the bundle tag
exists in the listing and carries no asset of the bundle name: the
endpoint is reused and the upload attaches the asset to that release. -/
theorem UploadLlvm_existing_noasset (args : Args) (bundle_path : String)
    (reg : Registry) (l1 l2 : List Release) (r : Release)
    (hsplit : reg.releases = l1 ++ r :: l2)
    (htag : r.tag_name = GetBundleVersion args)
    (hl1 : ∀ x ∈ l1, x.tag_name ≠ GetBundleVersion args)
    (hl2 : ∀ x ∈ l2, x.tag_name ≠ GetBundleVersion args)
    (hurl : ∀ x ∈ l1, stripUrl x.upload_url ≠ stripUrl r.upload_url)
    (hfind : r.assets.find? (fun a => a.name = basename bundle_path) = none) :
    UploadLlvm args bundle_path reg =
      (.ok { releases :=
               l1 ++ ({ r with assets := r.assets ++
                 [{ name := basename bundle_path, id := reg.nextId }] }) :: l2,
             nextId := reg.nextId + 1 },
       [Ev.getReleases,
        Ev.uploadAsset (stripUrl r.upload_url) (basename bundle_path)]) := by
  have hscan : scanReleases (GetBundleVersion args) (basename bundle_path)
      reg.releases none reg [Ev.getReleases]
      = (.ok (some r.upload_url, reg), [Ev.getReleases]) := by
    rw [hsplit, scanReleases_skip_prefix _ _ l1 _ _ _ _ hl1,
      scanReleases_step_none _ _ r l2 _ _ _ htag hfind,
      scanReleases_skip _ _ l2 _ _ _ hl2]
  have hno : ∀ a ∈ r.assets, a.name ≠ basename bundle_path := by
    intro a ha hn
    have := List.find?_eq_none.mp hfind a ha
    simp [hn] at this
  have hup := uploadAssetR_split reg l1 r l2 (stripUrl r.upload_url)
    (basename bundle_path) hsplit hurl rfl hno
  simp only [UploadLlvm, hscan]
  simp only [uploadStep, hup]
  rfl

/-- Characterization of UploadLlvm when a release with the bundle tag
exists and already carries an asset of the bundle name: the asset is
deleted first, the endpoint is reused, and the upload attaches a fresh
asset — delete strictly before upload in the trace. -/
theorem UploadLlvm_existing_asset (args : Args) (bundle_path : String)
    (reg : Registry) (l1 l2 : List Release) (r : Release) (a : Asset)
    (hsplit : reg.releases = l1 ++ r :: l2)
    (htag : r.tag_name = GetBundleVersion args)
    (hl1 : ∀ x ∈ l1, x.tag_name ≠ GetBundleVersion args)
    (hl2 : ∀ x ∈ l2, x.tag_name ≠ GetBundleVersion args)
    (hurl : ∀ x ∈ l1, stripUrl x.upload_url ≠ stripUrl r.upload_url)
    (hfind : r.assets.find? (fun b => b.name = basename bundle_path) = some a)
    (hnames : (r.assets.map (fun b => b.name)).Nodup)
    (hid1 : ∀ x ∈ l1, ∀ b ∈ x.assets, b.id ≠ a.id)
    (hid2 : ∀ x ∈ l2, ∀ b ∈ x.assets, b.id ≠ a.id) :
    UploadLlvm args bundle_path reg =
      (.ok { releases :=
               l1 ++ ({ r with assets :=
                 r.assets.filter (fun b => ¬ b.id = a.id) ++
                   [{ name := basename bundle_path, id := reg.nextId }] }) :: l2,
             nextId := reg.nextId + 1 },
       [Ev.getReleases, Ev.deleteAsset a.id,
        Ev.uploadAsset (stripUrl r.upload_url) (basename bundle_path)]) := by
  have ha : a ∈ r.assets := List.mem_of_find?_eq_some hfind
  have haname : a.name = basename bundle_path := by
    have := List.find?_some hfind
    simpa using this
  have hdel := deleteAssetR_split reg l1 r l2 a hsplit ha hid1 hid2
  have hscan : scanReleases (GetBundleVersion args) (basename bundle_path)
      reg.releases none reg [Ev.getReleases]
      = (.ok (some r.upload_url,
           { reg with releases :=
               l1 ++ ({ r with assets := r.assets.filter (fun b => ¬ b.id = a.id) }) :: l2 }),
         [Ev.getReleases, Ev.deleteAsset a.id]) := by
    rw [hsplit, scanReleases_skip_prefix _ _ l1 _ _ _ _ hl1,
      scanReleases_step_del _ _ r l2 _ _ _ a _ htag hfind hdel,
      scanReleases_skip _ _ l2 _ _ _ hl2]
    rfl
  have hinj : ∀ b ∈ r.assets, ∀ c ∈ r.assets, b.name = c.name → b = c := by
    intro b hb c hc hbc
    exact List.inj_on_of_nodup_map hnames hb hc hbc
  have hno : ∀ b ∈ r.assets.filter (fun b => ¬ b.id = a.id),
      b.name ≠ basename bundle_path := by
    intro b hb hn
    have hbmem : b ∈ r.assets := List.mem_of_mem_filter hb
    have hbid : (¬ b.id = a.id) := by
      have := List.of_mem_filter hb
      simpa using this
    exact hbid (congrArg Asset.id (hinj b hbmem a ha (hn.trans haname.symm)))
  have hup := uploadAssetR_split
    { reg with releases :=
        l1 ++ ({ r with assets := r.assets.filter (fun b => ¬ b.id = a.id) }) :: l2 }
    l1 ({ r with assets := r.assets.filter (fun b => ¬ b.id = a.id) }) l2
    (stripUrl r.upload_url) (basename bundle_path) rfl hurl rfl hno
  simp only [UploadLlvm, hscan]
  simp only [uploadStep, hup]
  rfl

end PackageLlvm

namespace PackageLlvm

open ReleasePipe

/-- Characterization of UploadLlvm when no release carries the bundle
tag: a release is created with the tag, the human-readable title, the
body and the prerelease flag, and the bundle is uploaded to the new
endpoint. -/
theorem UploadLlvm_create (args : Args) (bundle_path : String) (reg : Registry)
    (hnone : ∀ x ∈ reg.releases, x.tag_name ≠ GetBundleVersion args)
    (hfresh : ∀ x ∈ reg.releases,
      stripUrl x.upload_url ≠ stripUrl (mkUploadUrl (GetBundleVersion args))) :
    UploadLlvm args bundle_path reg =
      (.ok { releases := reg.releases ++
               [{ tag_name := GetBundleVersion args,
                  upload_url := mkUploadUrl (GetBundleVersion args),
                  assets := [{ name := basename bundle_path, id := reg.nextId }],
                  title := releaseTitle args,
                  body := releaseTitle args ++
                    " without realtime, terminfo, and zlib dependencies.",
                  prerelease := args.release_candidate.isSome }],
             nextId := reg.nextId + 1 },
       [Ev.getReleases, Ev.createRelease (GetBundleVersion args),
        Ev.uploadAsset (stripUrl (mkUploadUrl (GetBundleVersion args)))
          (basename bundle_path)]) := by
  have hscan : scanReleases (GetBundleVersion args) (basename bundle_path)
      reg.releases none reg [Ev.getReleases]
      = (.ok (none, reg), [Ev.getReleases]) :=
    scanReleases_skip _ _ reg.releases _ _ _ hnone
  have hanytag : reg.releases.any (fun x => x.tag_name = GetBundleVersion args) = false := by
    simp only [List.any_eq_false]
    intro x hx
    simp [hnone x hx]
  have hcreate : createReleaseR reg (GetBundleVersion args) (releaseTitle args)
      (releaseTitle args ++ " without realtime, terminfo, and zlib dependencies.")
      args.release_candidate.isSome
      = .ok ({ reg with releases := reg.releases ++
               [{ tag_name := GetBundleVersion args,
                  upload_url := mkUploadUrl (GetBundleVersion args), assets := [],
                  title := releaseTitle args,
                  body := releaseTitle args ++
                    " without realtime, terminfo, and zlib dependencies.",
                  prerelease := args.release_candidate.isSome }] },
             mkUploadUrl (GetBundleVersion args)) := by
    simp [createReleaseR, hanytag]
  have hup : uploadAssetR
      { reg with releases := reg.releases ++
          [{ tag_name := GetBundleVersion args,
             upload_url := mkUploadUrl (GetBundleVersion args), assets := [],
             title := releaseTitle args,
             body := releaseTitle args ++
               " without realtime, terminfo, and zlib dependencies.",
             prerelease := args.release_candidate.isSome }] }
      (stripUrl (mkUploadUrl (GetBundleVersion args))) (basename bundle_path)
      = .ok { releases := reg.releases ++
                [{ tag_name := GetBundleVersion args,
                   upload_url := mkUploadUrl (GetBundleVersion args),
                   assets := [{ name := basename bundle_path, id := reg.nextId }],
                   title := releaseTitle args,
                   body := releaseTitle args ++
                     " without realtime, terminfo, and zlib dependencies.",
                   prerelease := args.release_candidate.isSome }],
              nextId := reg.nextId + 1 } := by
    have h := uploadAssetR_split
      { reg with releases := reg.releases ++
          [{ tag_name := GetBundleVersion args,
             upload_url := mkUploadUrl (GetBundleVersion args), assets := [],
             title := releaseTitle args,
             body := releaseTitle args ++
               " without realtime, terminfo, and zlib dependencies.",
             prerelease := args.release_candidate.isSome }] }
      reg.releases
      { tag_name := GetBundleVersion args,
        upload_url := mkUploadUrl (GetBundleVersion args), assets := [],
        title := releaseTitle args,
        body := releaseTitle args ++
          " without realtime, terminfo, and zlib dependencies.",
        prerelease := args.release_candidate.isSome }
      [] (stripUrl (mkUploadUrl (GetBundleVersion args))) (basename bundle_path)
      rfl hfresh rfl (by intro a ha; cases ha)
    simpa using h
  simp only [UploadLlvm, hscan]
  simp only [hcreate, uploadStep, hup]
  rfl

end PackageLlvm

namespace UploadClang

open ReleasePipe

/-- The publisher of upload_clang.py makes no create-release request. -/
theorem UploadBundleToGithub_no_create (version path : String) (reg : Registry) :
    ∀ t, Ev.createRelease t ∉ (UploadBundleToGithub version path reg).2 := by
  intro t
  unfold UploadBundleToGithub
  rcases hu : reg.releases.foldl
      (fun acc r => if r.tag_name != version then acc else some (stripUrl r.upload_url))
      none with _ | uu
  · simp only [hu]
    simp
  · simp only [hu]
    rcases ha : uploadAssetR reg uu (basename path) with st | reg2 <;>
      simp only [ha] <;> simp

/-- The publisher of upload_clang.py never deletes an asset. -/
theorem UploadBundleToGithub_no_delete (version path : String) (reg : Registry) :
    ∀ aid, Ev.deleteAsset aid ∉ (UploadBundleToGithub version path reg).2 := by
  intro aid
  unfold UploadBundleToGithub
  rcases hu : reg.releases.foldl
      (fun acc r => if r.tag_name != version then acc else some (stripUrl r.upload_url))
      none with _ | uu
  · simp only [hu]
    simp
  · simp only [hu]
    rcases ha : uploadAssetR reg uu (basename path) with st | reg2 <;>
      simp only [ha] <;> simp

/-- A successful run of the upload_clang publisher changes no tag. -/
theorem UploadBundleToGithub_tags (version path : String) (reg reg3 : Registry)
    (h : (UploadBundleToGithub version path reg).1 = .ok reg3) :
    tagsOf reg3 = tagsOf reg := by
  unfold UploadBundleToGithub at h
  rcases hu : reg.releases.foldl
      (fun acc r => if r.tag_name != version then acc else some (stripUrl r.upload_url))
      none with _ | uu
  · rw [hu] at h
    cases h
  · rw [hu] at h
    rcases ha : uploadAssetR reg uu (basename path) with st | reg2
    · simp only [ha] at h
      cases h
    · simp only [ha, Except.ok.injEq] at h
      subst h
      exact uploadAssetR_tags reg uu (basename path) reg2 ha

/-- The upload-endpoint fold of upload_clang stays None when no tag
matches. -/
theorem uploadUrlFold_none (v : String) (l : List Release)
    (h : ∀ x ∈ l, x.tag_name ≠ v) :
    l.foldl (fun acc r => if r.tag_name != v then acc else some (stripUrl r.upload_url))
      none = none := by
  induction l with
  | nil => rfl
  | cons x rest ih =>
    have hx : (x.tag_name != v) = true :=
      bne_iff_ne.mpr (h x (List.mem_cons_self x rest))
    simp only [List.foldl_cons, hx, if_true]
    exact ih (fun y hy => h y (List.mem_cons_of_mem _ hy))

/-- With no release carrying the tag, upload_clang exits with the
"not published yet" message after only listing releases. -/
theorem UploadBundleToGithub_absent (version path : String) (reg : Registry)
    (h : ∀ x ∈ reg.releases, x.tag_name ≠ version) :
    UploadBundleToGithub version path reg =
      (.error (.systemExit ("Release " ++ version ++ " not published yet.")),
       [Ev.getReleases]) := by
  unfold UploadBundleToGithub
  rw [uploadUrlFold_none version reg.releases h]

end UploadClang

namespace ReleasePipe

/-- Decomposition of a well-formed listing around one of its releases:
earlier and later releases have different tags, different stripped
endpoints (earlier side), and share no asset id with it. -/
theorem WellFormed_split (reg : Registry) (r : Release)
    (hWF : WellFormed reg) (hr : r ∈ reg.releases) :
    ∃ l1 l2, reg.releases = l1 ++ r :: l2 ∧
      (∀ x ∈ l1, x.tag_name ≠ r.tag_name) ∧
      (∀ x ∈ l2, x.tag_name ≠ r.tag_name) ∧
      (∀ x ∈ l1, stripUrl x.upload_url ≠ stripUrl r.upload_url) ∧
      (∀ a ∈ r.assets, ∀ x ∈ l1, ∀ b ∈ x.assets, b.id ≠ a.id) ∧
      (∀ a ∈ r.assets, ∀ x ∈ l2, ∀ b ∈ x.assets, b.id ≠ a.id) := by
  obtain ⟨l1, l2, hsplit⟩ := List.append_of_mem hr
  refine ⟨l1, l2, hsplit, ?_, ?_, ?_, ?_, ?_⟩
  · intro x hx hEq
    have htags := hWF.1
    rw [hsplit, List.map_append, List.map_cons] at htags
    obtain ⟨-, -, hdisj⟩ := List.nodup_append.mp htags
    have hx1 : r.tag_name ∈ l1.map (fun y => y.tag_name) := by
      have hx0 : x.tag_name ∈ l1.map (fun y => y.tag_name) :=
        List.mem_map_of_mem (fun y => y.tag_name) hx
      rwa [hEq] at hx0
    exact hdisj hx1 (List.mem_cons_self _ _)
  · intro x hx hEq
    have htags := hWF.1
    rw [hsplit, List.map_append, List.map_cons] at htags
    obtain ⟨-, h2, -⟩ := List.nodup_append.mp htags
    obtain ⟨hnot, -⟩ := List.nodup_cons.mp h2
    have hx2 : r.tag_name ∈ l2.map (fun y => y.tag_name) := by
      have hx0 : x.tag_name ∈ l2.map (fun y => y.tag_name) :=
        List.mem_map_of_mem (fun y => y.tag_name) hx
      rwa [hEq] at hx0
    exact hnot hx2
  · intro x hx hEq
    have hurls := hWF.2.1
    rw [hsplit, List.map_append, List.map_cons] at hurls
    obtain ⟨-, -, hdisj⟩ := List.nodup_append.mp hurls
    have hx1 : stripUrl r.upload_url ∈ l1.map (fun y => stripUrl y.upload_url) := by
      have hx0 : stripUrl x.upload_url ∈ l1.map (fun y => stripUrl y.upload_url) :=
        List.mem_map_of_mem (fun y => stripUrl y.upload_url) hx
      rwa [hEq] at hx0
    exact hdisj hx1 (List.mem_cons_self _ _)
  · intro a ha x hx b hb hEq
    have hids := hWF.2.2.2
    rw [hsplit, List.map_append, List.map_cons, List.flatten_append,
      List.flatten_cons] at hids
    obtain ⟨-, -, hdisj⟩ := List.nodup_append.mp hids
    have hbmem : a.id ∈ (l1.map (fun y => y.assets.map (fun c => c.id))).flatten := by
      rw [List.mem_flatten]
      refine ⟨x.assets.map (fun c => c.id),
        List.mem_map_of_mem (fun y => y.assets.map (fun c => c.id)) hx, ?_⟩
      have hb2 : b.id ∈ x.assets.map (fun c => c.id) :=
        List.mem_map_of_mem (fun c => c.id) hb
      rwa [hEq] at hb2
    have hamem : a.id ∈ r.assets.map (fun c => c.id) ++
        (l2.map (fun y => y.assets.map (fun c => c.id))).flatten :=
      List.mem_append_left _ (List.mem_map_of_mem (fun c => c.id) ha)
    exact hdisj hbmem hamem
  · intro a ha x hx b hb hEq
    have hids := hWF.2.2.2
    rw [hsplit, List.map_append, List.map_cons, List.flatten_append,
      List.flatten_cons] at hids
    obtain ⟨-, hBC, -⟩ := List.nodup_append.mp hids
    obtain ⟨-, -, hdisj⟩ := List.nodup_append.mp hBC
    have hamem : a.id ∈ r.assets.map (fun c => c.id) :=
      List.mem_map_of_mem (fun c => c.id) ha
    have hbmem : a.id ∈ (l2.map (fun y => y.assets.map (fun c => c.id))).flatten := by
      rw [List.mem_flatten]
      refine ⟨x.assets.map (fun c => c.id),
        List.mem_map_of_mem (fun y => y.assets.map (fun c => c.id)) hx, ?_⟩
      have hb2 : b.id ∈ x.assets.map (fun c => c.id) :=
        List.mem_map_of_mem (fun c => c.id) hb
      rwa [hEq] at hb2
    exact hdisj hamem hbmem

end ReleasePipe

namespace ReleasePipe

theorem find?_name_eq (assets : List Asset) (n : String) (a : Asset)
    (hnames : (assets.map (fun b => b.name)).Nodup)
    (ha : a ∈ assets) (han : a.name = n) :
    assets.find? (fun b => b.name = n) = some a := by
  induction assets with
  | nil => cases ha
  | cons x rest ih =>
    rcases List.mem_cons.mp ha with rfl | hmem
    · simp [List.find?, han]
    · by_cases hx : x.name = n
      · exfalso
        have h1 : n ∈ rest.map (fun b => b.name) := by
          have h0 : a.name ∈ rest.map (fun b => b.name) :=
            List.mem_map_of_mem (fun b => b.name) hmem
          rwa [han] at h0
        have h2 : x.name ∉ rest.map (fun b => b.name) :=
          (List.nodup_cons.mp hnames).1
        rw [hx] at h2
        exact h2 h1
      · have hfx : (decide (x.name = n)) = false := by simp [hx]
        simp only [List.find?, hfx]
        exact ih (List.nodup_cons.mp hnames).2 hmem

end ReleasePipe

/-- Claim C1: when a release with the version tag already exists in
the listing, UploadLlvm reuses its upload endpoint, creates no release,
keeps the set of tags unchanged (so at most one release per tag), and
leaves exactly one asset of the bundle name under that release; the
upload_clang publisher likewise never creates a release and keeps tags
unchanged on success. -/
theorem c1_publish_idempotent (args : PackageLlvm.Args) (bundle_path : String)
    (reg : ReleasePipe.Registry) (r : ReleasePipe.Release)
    (hWF : ReleasePipe.WellFormed reg) (hr : r ∈ reg.releases)
    (htag : r.tag_name = PackageLlvm.GetBundleVersion args) :
    (∀ t, ReleasePipe.Ev.createRelease t ∉
        (PackageLlvm.UploadLlvm args bundle_path reg).2) ∧
    (∃ reg2, (PackageLlvm.UploadLlvm args bundle_path reg).1 = .ok reg2 ∧
      ReleasePipe.tagsOf reg2 = ReleasePipe.tagsOf reg ∧
      ReleasePipe.Ev.uploadAsset (ReleasePipe.stripUrl r.upload_url)
          (ReleasePipe.basename bundle_path)
        ∈ (PackageLlvm.UploadLlvm args bundle_path reg).2 ∧
      (∀ x ∈ reg2.releases, x.tag_name = PackageLlvm.GetBundleVersion args →
        ReleasePipe.countNamed x.assets (ReleasePipe.basename bundle_path) = 1)) ∧
    (∀ t, ReleasePipe.Ev.createRelease t ∉
      (UploadClang.UploadBundleToGithub (PackageLlvm.GetBundleVersion args)
        bundle_path reg).2) ∧
    (∀ reg3, (UploadClang.UploadBundleToGithub (PackageLlvm.GetBundleVersion args)
        bundle_path reg).1 = .ok reg3 →
      ReleasePipe.tagsOf reg3 = ReleasePipe.tagsOf reg) := by
  obtain ⟨l1, l2, hsplit, hl1t, hl2t, hurl, hid1, hid2⟩ :=
    ReleasePipe.WellFormed_split reg r hWF hr
  have hl1 : ∀ x ∈ l1, x.tag_name ≠ PackageLlvm.GetBundleVersion args :=
    fun x hx => htag ▸ hl1t x hx
  have hl2 : ∀ x ∈ l2, x.tag_name ≠ PackageLlvm.GetBundleVersion args :=
    fun x hx => htag ▸ hl2t x hx
  have hnames := hWF.2.2.1 r hr
  rcases hfind : r.assets.find? (fun b => b.name = ReleasePipe.basename bundle_path)
    with _ | a
  · have heq := PackageLlvm.UploadLlvm_existing_noasset args bundle_path reg l1 l2 r
      hsplit htag hl1 hl2 hurl hfind
    have h0 : ReleasePipe.countNamed r.assets (ReleasePipe.basename bundle_path) = 0 := by
      apply ReleasePipe.countNamed_eq_zero
      intro b hb hbn
      have := List.find?_eq_none.mp hfind b hb
      simp [hbn] at this
    refine ⟨?_, ⟨_, by rw [heq], ?_, ?_, ?_⟩,
      UploadClang.UploadBundleToGithub_no_create _ _ _,
      fun reg3 h3 => UploadClang.UploadBundleToGithub_tags _ _ reg reg3 h3⟩
    · intro t
      rw [heq]
      simp
    · simp [ReleasePipe.tagsOf, hsplit]
    · rw [heq]
      simp
    · intro x hx hxtag
      rcases List.mem_append.mp hx with hx1 | hx2
      · exact absurd hxtag (hl1 x hx1)
      · rcases List.mem_cons.mp hx2 with rfl | hx3
        · show ReleasePipe.countNamed
            (r.assets ++ [{ name := ReleasePipe.basename bundle_path, id := reg.nextId }])
            (ReleasePipe.basename bundle_path) = 1
          rw [ReleasePipe.countNamed_append_one, h0]
        · exact absurd hxtag (hl2 x hx3)
  · have ha : a ∈ r.assets := List.mem_of_find?_eq_some hfind
    have haname : a.name = ReleasePipe.basename bundle_path := by
      have := List.find?_some hfind
      simpa using this
    have heq := PackageLlvm.UploadLlvm_existing_asset args bundle_path reg l1 l2 r a
      hsplit htag hl1 hl2 hurl hfind hnames (hid1 a ha) (hid2 a ha)
    have hinj : ∀ b ∈ r.assets, ∀ c ∈ r.assets, b.name = c.name → b = c :=
      fun b hb c hc hbc => List.inj_on_of_nodup_map hnames hb hc hbc
    have h0 : ReleasePipe.countNamed
        (r.assets.filter (fun b => ¬ b.id = a.id))
        (ReleasePipe.basename bundle_path) = 0 := by
      apply ReleasePipe.countNamed_eq_zero
      intro b hb hbn
      have hbmem : b ∈ r.assets := List.mem_of_mem_filter hb
      have hbid : ¬ b.id = a.id := by
        have := List.of_mem_filter hb
        simpa using this
      exact hbid (congrArg ReleasePipe.Asset.id
        (hinj b hbmem a ha (hbn.trans haname.symm)))
    refine ⟨?_, ⟨_, by rw [heq], ?_, ?_, ?_⟩,
      UploadClang.UploadBundleToGithub_no_create _ _ _,
      fun reg3 h3 => UploadClang.UploadBundleToGithub_tags _ _ reg reg3 h3⟩
    · intro t
      rw [heq]
      simp
    · simp [ReleasePipe.tagsOf, hsplit]
    · rw [heq]
      simp
    · intro x hx hxtag
      rcases List.mem_append.mp hx with hx1 | hx2
      · exact absurd hxtag (hl1 x hx1)
      · rcases List.mem_cons.mp hx2 with rfl | hx3
        · show ReleasePipe.countNamed
            (r.assets.filter (fun b => ¬ b.id = a.id) ++
              [{ name := ReleasePipe.basename bundle_path, id := reg.nextId }])
            (ReleasePipe.basename bundle_path) = 1
          rw [ReleasePipe.countNamed_append_one, h0]
        · exact absurd hxtag (hl2 x hx3)

/-- Witness for C1: re-running the publisher for version 10.0.0 against
a listing that already has the 10.0.0 release with the bundle asset
succeeds, creates nothing, preserves tags, and ends with exactly one
asset of the bundle name. -/
theorem c1_publish_idempotent_app :
    ∃ reg2, (PackageLlvm.UploadLlvm Fixture.argsPL Fixture.bundlePath Fixture.regWF).1
        = .ok reg2 ∧
      ReleasePipe.tagsOf reg2 = ReleasePipe.tagsOf Fixture.regWF ∧
      ReleasePipe.Ev.uploadAsset (ReleasePipe.stripUrl Fixture.relA.upload_url)
          (ReleasePipe.basename Fixture.bundlePath)
        ∈ (PackageLlvm.UploadLlvm Fixture.argsPL Fixture.bundlePath Fixture.regWF).2 ∧
      (∀ x ∈ reg2.releases, x.tag_name = PackageLlvm.GetBundleVersion Fixture.argsPL →
        ReleasePipe.countNamed x.assets (ReleasePipe.basename Fixture.bundlePath) = 1) :=
  (c1_publish_idempotent Fixture.argsPL Fixture.bundlePath Fixture.regWF Fixture.relA
    (by decide) (by decide) (by decide)).2.1

/-- Claim C2 (amended): the package_llvm publisher (UploadLlvm), given
a release already containing an asset of the bundle name, deletes that
asset and only then uploads — the trace is exactly list, delete,
upload; the upload_clang publisher (UploadBundleToGithub) never issues
a delete before its upload. -/
theorem c2_delete_before_upload_amended (args : PackageLlvm.Args)
    (bundle_path : String) (reg : ReleasePipe.Registry)
    (r : ReleasePipe.Release) (a : ReleasePipe.Asset)
    (hWF : ReleasePipe.WellFormed reg) (hr : r ∈ reg.releases)
    (htag : r.tag_name = PackageLlvm.GetBundleVersion args)
    (ha : a ∈ r.assets)
    (haname : a.name = ReleasePipe.basename bundle_path) :
    (PackageLlvm.UploadLlvm args bundle_path reg).2 =
      [ReleasePipe.Ev.getReleases, ReleasePipe.Ev.deleteAsset a.id,
       ReleasePipe.Ev.uploadAsset (ReleasePipe.stripUrl r.upload_url)
         (ReleasePipe.basename bundle_path)] ∧
    (∀ v p rg aid, ReleasePipe.Ev.deleteAsset aid ∉
      (UploadClang.UploadBundleToGithub v p rg).2) := by
  obtain ⟨l1, l2, hsplit, hl1t, hl2t, hurl, hid1, hid2⟩ :=
    ReleasePipe.WellFormed_split reg r hWF hr
  have hl1 : ∀ x ∈ l1, x.tag_name ≠ PackageLlvm.GetBundleVersion args :=
    fun x hx => htag ▸ hl1t x hx
  have hl2 : ∀ x ∈ l2, x.tag_name ≠ PackageLlvm.GetBundleVersion args :=
    fun x hx => htag ▸ hl2t x hx
  have hnames := hWF.2.2.1 r hr
  have hfind : r.assets.find? (fun b => b.name = ReleasePipe.basename bundle_path)
      = some a :=
    ReleasePipe.find?_name_eq r.assets (ReleasePipe.basename bundle_path) a
      hnames ha haname
  have heq := PackageLlvm.UploadLlvm_existing_asset args bundle_path reg l1 l2 r a
    hsplit htag hl1 hl2 hurl hfind hnames (hid1 a ha) (hid2 a ha)
  refine ⟨?_, fun v p rg aid => UploadClang.UploadBundleToGithub_no_delete v p rg aid⟩
  rw [heq]

/-- Witness for the amended C2 at the fixture registry: the trace of
the re-run is exactly list, delete asset 7, upload. -/
theorem c2_delete_before_upload_amended_app :
    (PackageLlvm.UploadLlvm Fixture.argsPL Fixture.bundlePath Fixture.regWF).2 =
      [ReleasePipe.Ev.getReleases, ReleasePipe.Ev.deleteAsset 7,
       ReleasePipe.Ev.uploadAsset (ReleasePipe.stripUrl Fixture.relA.upload_url)
         (ReleasePipe.basename Fixture.bundlePath)] :=
  (c2_delete_before_upload_amended Fixture.argsPL Fixture.bundlePath Fixture.regWF
    Fixture.relA { name := "clang+llvm-10.0.0-x86_64-unknown-linux-gnu.tar.xz", id := 7 }
    (by decide) (by decide) (by decide) (by decide) (by decide)).1

/-- Counterexample to C2 as stated: a publish by the upload_clang
publisher to a release that already contains a same-named asset makes
an upload request without any preceding delete — its whole trace holds
no delete at all, so the deletion step of the claim does not happen. -/
theorem c2_upload_clang_no_delete_cex :
    (∃ x ∈ Fixture.regWF.releases, x.tag_name = "10.0.0" ∧
      ∃ b ∈ x.assets, b.name = ReleasePipe.basename Fixture.bundlePath) ∧
    (UploadClang.UploadBundleToGithub "10.0.0" Fixture.bundlePath Fixture.regWF).2 =
      [ReleasePipe.Ev.getReleases,
       ReleasePipe.Ev.uploadAsset
         "https://uploads.github.test/repos/ycm-core/llvm/releases/10.0.0/assets"
         "clang+llvm-10.0.0-x86_64-unknown-linux-gnu.tar.xz"] ∧
    ((UploadClang.UploadBundleToGithub "10.0.0" Fixture.bundlePath Fixture.regWF).2.all
      (fun e => match e with
        | ReleasePipe.Ev.deleteAsset _ => false
        | _ => true) = true) := by
  refine ⟨?_, ?_, ?_⟩ <;> decide

/-- Claim C7 (amended): when no release carries the version tag, the
package_llvm publisher creates one with the tag, a human-readable
name, a body, and a prerelease flag true iff a release candidate was
supplied, then uploads to the new endpoint; the upload_clang publisher
instead aborts with "Release ... not published yet." and never creates
a release. -/
theorem c7_create_release_amended (args : PackageLlvm.Args)
    (bundle_path : String) (reg : ReleasePipe.Registry)
    (hnone : ∀ x ∈ reg.releases, x.tag_name ≠ PackageLlvm.GetBundleVersion args)
    (hfresh : ∀ x ∈ reg.releases, ReleasePipe.stripUrl x.upload_url ≠
      ReleasePipe.stripUrl (ReleasePipe.mkUploadUrl (PackageLlvm.GetBundleVersion args))) :
    PackageLlvm.UploadLlvm args bundle_path reg =
      (.ok { releases := reg.releases ++
               [{ tag_name := PackageLlvm.GetBundleVersion args,
                  upload_url := ReleasePipe.mkUploadUrl (PackageLlvm.GetBundleVersion args),
                  assets := [{ name := ReleasePipe.basename bundle_path,
                               id := reg.nextId }],
                  title := PackageLlvm.releaseTitle args,
                  body := PackageLlvm.releaseTitle args ++
                    " without realtime, terminfo, and zlib dependencies.",
                  prerelease := args.release_candidate.isSome }],
             nextId := reg.nextId + 1 },
       [ReleasePipe.Ev.getReleases,
        ReleasePipe.Ev.createRelease (PackageLlvm.GetBundleVersion args),
        ReleasePipe.Ev.uploadAsset
          (ReleasePipe.stripUrl (ReleasePipe.mkUploadUrl (PackageLlvm.GetBundleVersion args)))
          (ReleasePipe.basename bundle_path)]) ∧
    UploadClang.UploadBundleToGithub (PackageLlvm.GetBundleVersion args) bundle_path reg =
      (.error (.systemExit ("Release " ++ PackageLlvm.GetBundleVersion args ++
         " not published yet.")),
       [ReleasePipe.Ev.getReleases]) :=
  ⟨PackageLlvm.UploadLlvm_create args bundle_path reg hnone hfresh,
   UploadClang.UploadBundleToGithub_absent (PackageLlvm.GetBundleVersion args)
     bundle_path reg hnone⟩

/-- Witness for the amended C7 at the fixture registry and release
candidate 1 of 11.0.0: the run creates the 11.0.0-rc1 release (with
prerelease true) and uploads the bundle to its endpoint. -/
theorem c7_create_release_amended_app :
    (PackageLlvm.UploadLlvm Fixture.argsRC Fixture.bundlePathRC Fixture.regWF).2 =
      [ReleasePipe.Ev.getReleases,
       ReleasePipe.Ev.createRelease "11.0.0-rc1",
       ReleasePipe.Ev.uploadAsset
         (ReleasePipe.stripUrl (ReleasePipe.mkUploadUrl "11.0.0-rc1"))
         (ReleasePipe.basename Fixture.bundlePathRC)] := by
  have h := (c7_create_release_amended Fixture.argsRC Fixture.bundlePathRC Fixture.regWF
    (by decide) (by decide)).1
  rw [h]
  decide

/-- Counterexample to C7 as stated: with no release carrying the tag,
the upload_clang publisher does not create a release — it exits with
the "not published yet" message after only listing releases. -/
theorem c7_upload_clang_never_creates_cex :
    (∀ x ∈ Fixture.regWF.releases, x.tag_name ≠ "11.0.0") ∧
    UploadClang.UploadBundleToGithub "11.0.0"
        "/build/clangd-11.0.0-x86_64-unknown-linux-gnu.tar.bz2" Fixture.regWF =
      (.error (.systemExit "Release 11.0.0 not published yet."),
       [ReleasePipe.Ev.getReleases]) := by
  refine ⟨?_, ?_⟩ <;> decide

namespace UploadClang

open ReleasePipe

/-- Whenever the download is actually attempted — no cache directory
configured, or the cached copy misses (an IOError of the cached lzma
block, an absent nsis installer) — a failing download makes the
preparation of either table format fail with that error after exactly
one download request. -/
theorem PrepareStep_download_error (args : Args) (env : Env)
    (temp_dir os_name : String) (dd : DownloadData) (st : St) (e : PyErr)
    (hmiss : (dd.format = "lzma" ∧ (args.from_cache = none ∨
        ∃ cd, args.from_cache = some cd ∧
          ∃ m, cacheAttempt env (ExtractLZMA env) cd
            (pkgFormat dd.llvm_package os_name args.version)
            (temp_dir ++ "/" ++ os_name) st.fs = .error (.ioError m)))
      ∨ (dd.format = "nsis" ∧ (args.from_cache = none ∨
        ∃ cd, args.from_cache = some cd ∧
          env.cacheHas (cd ++ "/" ++ pkgFormat dd.llvm_package os_name args.version)
            = false)))
    (hdl : env.download (urlFormat dd.url args.version
      (pkgFormat dd.llvm_package os_name args.version)) = .error e) :
    PrepareStep args env temp_dir os_name dd st
      = (.error e, [Ev.download (urlFormat dd.url args.version
          (pkgFormat dd.llvm_package os_name args.version))]) := by
  rcases hmiss with ⟨hfmt, hc⟩ | ⟨hfmt, hc⟩
  · rcases hc with hc | ⟨cd, hc, m, hca⟩
    · simp only [PrepareStep, hfmt, reduceIte, hc]
      simp [PrepareBundleBuiltIn, PrepareFallback, hdl]
    · simp only [PrepareStep, hfmt, reduceIte, hc]
      simp only [PrepareBundleBuiltIn, hca]
      simp [PrepareFallback, hdl]
  · rcases hc with hc | ⟨cd, hc, hch⟩
    · simp only [PrepareStep, hfmt, reduceIte, hc]
      simp [PrepareBundleNSIS, hdl]
    · simp only [PrepareStep, hfmt, reduceIte, hc]
      simp [PrepareBundleNSIS, hch, hdl]

/-- BundleAndUpload on a platform whose preparation raised an
HTTPError, whatever the format and cache configuration: the 404 case
returns normally (skip), any other status is re-raised. -/
theorem BundleAndUpload_prepare_httpError (args : Args) (env : Env)
    (temp_dir output_dir os_name : String) (dd : DownloadData)
    (license_file_name : String) (st : St) (s : Nat) (pevs : List Ev)
    (hps : PrepareStep args env temp_dir os_name dd st
      = (.error (.httpError s), pevs)) :
    BundleAndUpload args env temp_dir output_dir os_name dd license_file_name st
      = ({ st with evs := st.evs ++ pevs },
         if s != 404 then some (.httpError s) else none) := by
  simp only [BundleAndUpload, hps]
  split <;> rfl

end UploadClang

/-- Claim C4: every platform target of the table downloads in the lzma
or the nsis format; in either format, with or without a cache directory
(the cached copy missing, so the fetch happens), an HTTP 404
downloading the platform package is a logged skip and the platform loop
continues with the remaining platforms of the same run, while a non-404
HTTP failure propagates and aborts the loop. -/
theorem c4_skip_404_continue (args : UploadClang.Args) (env : UploadClang.Env)
    (temp_dir output_dir license_file_name os_name : String)
    (dd : UploadClang.DownloadData)
    (rest : List (String × UploadClang.DownloadData)) (st : UploadClang.St)
    (honly : UploadClang.onlyAllows args os_name = true)
    (hmiss : (dd.format = "lzma" ∧ (args.from_cache = none ∨
        ∃ cd, args.from_cache = some cd ∧
          ∃ m, UploadClang.cacheAttempt env (UploadClang.ExtractLZMA env) cd
            (UploadClang.pkgFormat dd.llvm_package os_name args.version)
            (temp_dir ++ "/" ++ os_name) st.fs = .error (.ioError m)))
      ∨ (dd.format = "nsis" ∧ (args.from_cache = none ∨
        ∃ cd, args.from_cache = some cd ∧
          env.cacheHas (cd ++ "/" ++ UploadClang.pkgFormat dd.llvm_package os_name
            args.version) = false))) :
    (∀ p ∈ UploadClang.LLVM_DOWNLOAD_DATA,
      p.2.format = "lzma" ∨ p.2.format = "nsis") ∧
    (env.download (UploadClang.urlFormat dd.url args.version
        (UploadClang.pkgFormat dd.llvm_package os_name args.version))
        = .error (.httpError 404) →
      UploadClang.MainLoop args env temp_dir output_dir license_file_name
          ((os_name, dd) :: rest) st
        = UploadClang.MainLoop args env temp_dir output_dir license_file_name rest
            { st with evs := st.evs ++
                [ReleasePipe.Ev.download (UploadClang.urlFormat dd.url args.version
                  (UploadClang.pkgFormat dd.llvm_package os_name args.version))] }) ∧
    (∀ s, s ≠ 404 →
      env.download (UploadClang.urlFormat dd.url args.version
        (UploadClang.pkgFormat dd.llvm_package os_name args.version))
        = .error (.httpError s) →
      UploadClang.MainLoop args env temp_dir output_dir license_file_name
          ((os_name, dd) :: rest) st
        = ({ st with evs := st.evs ++
              [ReleasePipe.Ev.download (UploadClang.urlFormat dd.url args.version
                (UploadClang.pkgFormat dd.llvm_package os_name args.version))] },
           some (.httpError s))) := by
  refine ⟨by decide, ?_, ?_⟩
  · intro hdl
    have hps := UploadClang.PrepareStep_download_error args env temp_dir os_name dd st
      (.httpError 404) hmiss hdl
    have hbu := UploadClang.BundleAndUpload_prepare_httpError args env temp_dir
      output_dir os_name dd license_file_name st 404 _ hps
    simp at hbu
    simp only [UploadClang.MainLoop, honly, if_true, hbu]
  · intro s hs hdl
    have hps := UploadClang.PrepareStep_download_error args env temp_dir os_name dd st
      (.httpError s) hmiss hdl
    have hbu := UploadClang.BundleAndUpload_prepare_httpError args env temp_dir
      output_dir os_name dd license_file_name st s _ hps
    have hbne : (s != 404) = true := bne_iff_ne.mpr hs
    rw [hbne] at hbu
    simp at hbu
    simp only [UploadClang.MainLoop, honly, if_true, hbu]

/-- Witness for C4: with a cache directory configured but the win32
installer not cached, its download answering 404 is skipped and the run
still processes the following win64 platform. -/
theorem c4_skip_404_continue_app :
    UploadClang.MainLoop Fixture.argsWin Fixture.env404win "/tmp/work" "/out"
        "/tmp/work/LICENSE.TXT"
        [("win32", Fixture.ddWin), ("win64", Fixture.ddWin)] Fixture.st0
      = UploadClang.MainLoop Fixture.argsWin Fixture.env404win "/tmp/work" "/out"
          "/tmp/work/LICENSE.TXT" [("win64", Fixture.ddWin)]
          { Fixture.st0 with
            evs := [ReleasePipe.Ev.download Fixture.urlWin32] } := by
  have h := (c4_skip_404_continue Fixture.argsWin Fixture.env404win "/tmp/work" "/out"
    "/tmp/work/LICENSE.TXT" "win32" Fixture.ddWin [("win64", Fixture.ddWin)]
    Fixture.st0 (by decide)
    (Or.inr ⟨by decide, Or.inr ⟨"/cache", rfl, by decide⟩⟩)).2.1 (by decide)
  rw [h]
  decide

namespace UploadClang

open ReleasePipe

/-- A successful upload run of upload_clang uploads exactly one asset,
named by the basename of the bundle path. -/
theorem UploadBundleToGithub_ok_events (v p : String) (rg rg2 : Registry)
    (uevs : List Ev) (h : UploadBundleToGithub v p rg = (.ok rg2, uevs)) :
    uploadNames uevs = [basename p] := by
  unfold UploadBundleToGithub at h
  rcases hu : rg.releases.foldl
      (fun acc r => if r.tag_name != v then acc else some (stripUrl r.upload_url))
      none with _ | uu
  · rw [hu] at h
    simp at h
  · rw [hu] at h
    rcases ha : uploadAssetR rg uu (basename p) with st | r2
    · simp only [ha, Prod.mk.injEq] at h
      exact absurd h.1 (by simp)
    · simp only [ha, Prod.mk.injEq] at h
      rw [← h.2]
      simp [uploadNames]

/-- upload_clang failures are SystemExit or HTTPError, never the
RuntimeError of a failed bundling. -/
theorem UploadBundleToGithub_no_runtime (v p : String) (rg : Registry) (m : String) :
    (UploadBundleToGithub v p rg).1 ≠ .error (.runtimeError m) := by
  unfold UploadBundleToGithub
  rcases hu : rg.releases.foldl
      (fun acc r => if r.tag_name != v then acc else some (stripUrl r.upload_url))
      none with _ | uu
  · simp only [hu]
    simp
  · simp only [hu]
    rcases ha : uploadAssetR rg uu (basename p) with st | r2 <;>
      simp only [ha] <;> simp

/-- The trace of the lzma preparation is empty or one download. -/
theorem PrepareBundleBuiltIn_trace (env : Env)
    (extract_fun : Bytes → String → FS → Except PyErr (String × FS))
    (cache_dir : Option String) (p u t : String) (fs : FS) :
    (PrepareBundleBuiltIn env extract_fun cache_dir p u t fs).2 = []
    ∨ (PrepareBundleBuiltIn env extract_fun cache_dir p u t fs).2 = [Ev.download u] := by
  rcases cache_dir with _ | cd
  · right
    show (PrepareFallback env extract_fun none p u t fs).2 = [Ev.download u]
    exact PrepareFallback_trace env extract_fun none p u t fs
  · rcases hca : cacheAttempt env extract_fun cd p t fs with e | res
    · rcases e with m | s | m | m | m | m | _ | _
      · right
        have hstep : PrepareBundleBuiltIn env extract_fun (some cd) p u t fs
            = PrepareFallback env extract_fun (some cd) p u t fs := by
          simp only [PrepareBundleBuiltIn, hca]
        rw [hstep]
        exact PrepareFallback_trace env extract_fun (some cd) p u t fs
      all_goals
        left
        simp only [PrepareBundleBuiltIn, hca]
    · left
      simp only [PrepareBundleBuiltIn, hca]

/-- The trace of the nsis preparation is empty or one download. -/
theorem PrepareBundleNSIS_trace (env : Env) (cache_dir : Option String)
    (p u t : String) (fs : FS) :
    (PrepareBundleNSIS env cache_dir p u t fs).2 = []
    ∨ (PrepareBundleNSIS env cache_dir p u t fs).2 = [Ev.download u] := by
  unfold PrepareBundleNSIS
  rcases cache_dir with _ | cd
  · rcases hd : env.download u with e | data
    · right
      simp [hd]
    · rcases hw : env.writeCache (t ++ "/" ++ p) data with e | un
      · right
        simp [hd, hw]
      · right
        simp [hd, hw]
  · by_cases hch : env.cacheHas (cd ++ "/" ++ p)
    · left
      simp [hch]
    · rcases hd : env.download u with e | data
      · right
        simp [hch, hd]
      · rcases hw : env.writeCache (cd ++ "/" ++ p) data with e | un
        · right
          simp [hch, hd, hw]
        · right
          simp [hch, hd, hw]


theorem bundleStep_evs (args : Args) (package_dir archive_name : String)
    (entries : List (String × Bytes)) (st : St) :
    (bundleStep args package_dir archive_name entries st).evs = st.evs := by
  unfold bundleStep
  by_cases hkt : args.keep_temp <;> simp [hkt]

theorem bundleStep_reg (args : Args) (package_dir archive_name : String)
    (entries : List (String × Bytes)) (st : St) :
    (bundleStep args package_dir archive_name entries st).reg = st.reg := by
  unfold bundleStep
  by_cases hkt : args.keep_temp <;> simp [hkt]

/-- When the package loop ends in the RuntimeError of a failed
bundling, the uploads made by the loop are exactly those of a strict
prefix of the package specs — the failing package and everything after
it are never uploaded. -/
theorem MakeBundleLoop_runtime_uploads (args : Args)
    (os_name output_dir package_dir license_file_name : String)
    (specs : List PackageSpec) :
    ∀ (st st2 : St) (m : String),
    MakeBundleLoop args os_name output_dir package_dir license_file_name specs st
      = (st2, some (.runtimeError m)) →
    ∃ pre fsp rest2, specs = pre ++ fsp :: rest2 ∧
      ∃ Δ, st2.evs = st.evs ++ Δ ∧
        uploadNames Δ = (if args.no_upload then [] else
          pre.map (fun sp =>
            basename (output_dir ++ "/" ++ pkgFormat sp.name os_name args.version))) := by
  induction specs with
  | nil =>
    intro st st2 m h
    simp [MakeBundleLoop] at h
  | cons spec rest ih =>
    intro st st2 m h
    rcases hmb : MakeBundle spec.files_to_copy license_file_name package_dir
        (output_dir ++ "/" ++ pkgFormat spec.name os_name args.version)
        args.version st.fs with e | entries
    · simp only [MakeBundleLoop, hmb, Prod.mk.injEq] at h
      obtain ⟨h1, h2⟩ := h
      refine ⟨[], spec, rest, rfl, [], ?_, by simp [uploadNames]⟩
      rw [← h1]
      simp
    · simp only [MakeBundleLoop, hmb] at h
      by_cases hnu : args.no_upload
      · rw [if_pos hnu] at h
        obtain ⟨pre, fsp, rest2, hspecs, Δ, hevs, hun⟩ := ih _ _ _ h
        rw [bundleStep_evs] at hevs
        refine ⟨spec :: pre, fsp, rest2, by simp [hspecs], Δ, hevs, ?_⟩
        rw [if_pos hnu] at hun ⊢
        exact hun
      · rw [if_neg hnu] at h
        rcases hub : UploadBundleToGithub args.version
            (output_dir ++ "/" ++ pkgFormat spec.name os_name args.version)
            (bundleStep args package_dir
              (pkgFormat spec.name os_name args.version) entries st).reg
          with ⟨res, uevs⟩
        rw [hub] at h
        rcases res with e | reg2
        · exfalso
          have hnr := UploadBundleToGithub_no_runtime args.version
            (output_dir ++ "/" ++ pkgFormat spec.name os_name args.version)
            (bundleStep args package_dir
              (pkgFormat spec.name os_name args.version) entries st).reg m
          rw [hub] at hnr
          simp only [Prod.mk.injEq] at h
          obtain ⟨-, h2⟩ := h
          obtain ⟨h3⟩ := h2
          exact hnr rfl
        · obtain ⟨pre, fsp, rest2, hspecs, Δ, hevs, hun⟩ := ih _ _ _ h
          have hok : uploadNames uevs =
              [basename (output_dir ++ "/" ++ pkgFormat spec.name os_name args.version)] :=
            UploadBundleToGithub_ok_events args.version _ _ reg2 uevs hub
          refine ⟨spec :: pre, fsp, rest2, by simp [hspecs], uevs ++ Δ, ?_, ?_⟩
          · rw [hevs]
            simp [bundleStep_evs, List.append_assoc]
          · rw [if_neg hnu] at hun ⊢
            simp only [uploadNames, List.filterMap_append] at hun ⊢
            rw [List.map_cons]
            have : uploadNames uevs ++ uploadNames Δ =
                basename (output_dir ++ "/" ++ pkgFormat spec.name os_name args.version)
                  :: uploadNames Δ := by
              rw [hok]
              rfl
            simp only [uploadNames] at this
            rw [this, hun]

end UploadClang

namespace UploadClang

open ReleasePipe

/-- The preparation step never uploads anything. -/
theorem PrepareStep_uploads_nil (args : Args) (env : Env)
    (temp_dir os_name : String) (dd : DownloadData) (st : St) :
    uploadNames (PrepareStep args env temp_dir os_name dd st).2 = [] := by
  simp only [PrepareStep]
  split
  · rcases PrepareBundleBuiltIn_trace env (ExtractLZMA env) args.from_cache
        (pkgFormat dd.llvm_package os_name args.version)
        (urlFormat dd.url args.version (pkgFormat dd.llvm_package os_name args.version))
        (temp_dir ++ "/" ++ os_name) st.fs with h | h <;> rw [h] <;> rfl
  · split
    · rcases PrepareBundleNSIS_trace env args.from_cache
          (pkgFormat dd.llvm_package os_name args.version)
          (urlFormat dd.url args.version (pkgFormat dd.llvm_package os_name args.version))
          (temp_dir ++ "/" ++ os_name) st.fs with h | h <;> rw [h] <;> rfl
    · rfl

end UploadClang

/-- Claim C5 (amended): a missing required source file makes bundling
raise a RuntimeError which propagates, aborting the platform and the
whole platform loop, before the failing package is ever uploaded; the
uploads of the failing platform run are exactly those of the packages
bundled earlier in the same run (which may already have happened), and
a failure of the first package means no upload at all. -/
theorem c5_missing_file_aborts_amended (args : UploadClang.Args)
    (env : UploadClang.Env)
    (temp_dir output_dir os_name license_file_name : String)
    (dd : UploadClang.DownloadData) (st : UploadClang.St) :
    (∀ rest st2 e, UploadClang.onlyAllows args os_name = true →
      UploadClang.BundleAndUpload args env temp_dir output_dir os_name dd
        license_file_name st = (st2, some e) →
      UploadClang.MainLoop args env temp_dir output_dir license_file_name
        ((os_name, dd) :: rest) st = (st2, some e)) ∧
    (∀ package_dir fs2 pevs m,
      UploadClang.PrepareStep args env temp_dir os_name dd st
        = (.ok (package_dir, fs2), pevs) →
      UploadClang.MakeBundle dd.libclang_package.files_to_copy license_file_name
          package_dir
          (output_dir ++ "/" ++
            UploadClang.pkgFormat dd.libclang_package.name os_name args.version)
          args.version fs2 = .error (.runtimeError m) →
      UploadClang.BundleAndUpload args env temp_dir output_dir os_name dd
          license_file_name st
        = ({ st with fs := fs2, evs := st.evs ++ pevs }, some (.runtimeError m))) ∧
    (∀ st2 m, UploadClang.BundleAndUpload args env temp_dir output_dir os_name dd
        license_file_name st = (st2, some (.runtimeError m)) →
      ∃ pre fsp rest2,
        [dd.libclang_package, dd.clangd_package] = pre ++ fsp :: rest2 ∧
        ∃ Δ, st2.evs = st.evs ++ Δ ∧
          ReleasePipe.uploadNames Δ = (if args.no_upload then [] else
            pre.map (fun sp => ReleasePipe.basename
              (output_dir ++ "/" ++ UploadClang.pkgFormat sp.name os_name args.version)))) := by
  refine ⟨?_, ?_, ?_⟩
  · intro rest st2 e honly hbu
    simp only [UploadClang.MainLoop, honly, if_true, hbu]
  · intro package_dir fs2 pevs m hprep hmb
    simp only [UploadClang.BundleAndUpload, hprep]
    simp only [UploadClang.MakeBundleLoop, hmb]
  · intro st2 m h
    rcases hprep : UploadClang.PrepareStep args env temp_dir os_name dd st
      with ⟨pres, pevs⟩
    have hpn : ReleasePipe.uploadNames pevs = [] := by
      have := UploadClang.PrepareStep_uploads_nil args env temp_dir os_name dd st
      rw [hprep] at this
      exact this
    rcases pres with e | pd
    · rcases e with mm | s | mm | mm | mm | mm | _ | _
      all_goals
        simp only [UploadClang.BundleAndUpload, hprep, Prod.mk.injEq] at h
      · exact absurd h.2 (by simp)
      · rcases hs : (s != 404) with _ | _
        · rw [hs] at h
          simp at h
        · rw [hs] at h
          simp at h
      · exact absurd h.2 (by simp)
      · refine ⟨[], dd.libclang_package, [dd.clangd_package], rfl, pevs, ?_, ?_⟩
        · rw [← h.1]
        · rw [hpn]
          simp
      all_goals
        exact absurd h.2 (by simp)
    · rcases pd with ⟨package_dir, fs2⟩
      have hloop : UploadClang.MakeBundleLoop args os_name output_dir package_dir
          license_file_name [dd.libclang_package, dd.clangd_package]
          { st with fs := fs2, evs := st.evs ++ pevs } = (st2, some (.runtimeError m)) := by
        have hb : UploadClang.BundleAndUpload args env temp_dir output_dir os_name dd
            license_file_name st
            = UploadClang.MakeBundleLoop args os_name output_dir package_dir
                license_file_name [dd.libclang_package, dd.clangd_package]
                { st with fs := fs2, evs := st.evs ++ pevs } := by
          simp only [UploadClang.BundleAndUpload, hprep]
        rw [← hb]
        exact h
      obtain ⟨pre, fsp, rest2, hspecs, Δ, hevs, hun⟩ :=
        UploadClang.MakeBundleLoop_runtime_uploads args os_name output_dir package_dir
          license_file_name [dd.libclang_package, dd.clangd_package] _ _ _ hloop
      refine ⟨pre, fsp, rest2, hspecs, pevs ++ Δ, ?_, ?_⟩
      · rw [hevs]
        simp [List.append_assoc]
      · simp only [ReleasePipe.uploadNames, List.filterMap_append] at hun ⊢
        simp only [ReleasePipe.uploadNames] at hpn
        rw [hpn, hun]
        simp

/-- Witness for the amended C5: with lib/libclang.so missing from the
extracted payload, the first bundling fails and the platform run ends
with exactly that RuntimeError before any upload. -/
theorem c5_missing_file_aborts_amended_app :
    UploadClang.BundleAndUpload Fixture.argsC3 Fixture.envNoLib "/tmp/work" "/out"
        "x86_64-unknown-linux-gnu" Fixture.ddLinux "/tmp/work/LICENSE.TXT" Fixture.st0
      = ({ Fixture.st0 with
             fs := [("/tmp/work/x86_64-unknown-linux-gnu/root/bin/clangd", "CLD"),
                    ("/tmp/work/LICENSE.TXT", "LIC")],
             evs := [ReleasePipe.Ev.download Fixture.urlLinux] },
         some (.runtimeError
           "File /tmp/work/x86_64-unknown-linux-gnu/root/lib/libclang.so does not exist.")) := by
  have h := (c5_missing_file_aborts_amended Fixture.argsC3 Fixture.envNoLib "/tmp/work"
      "/out" "x86_64-unknown-linux-gnu" "/tmp/work/LICENSE.TXT" Fixture.ddLinux
      Fixture.st0).2.1
    "/tmp/work/x86_64-unknown-linux-gnu/root"
    [("/tmp/work/x86_64-unknown-linux-gnu/root/bin/clangd", "CLD"),
     ("/tmp/work/LICENSE.TXT", "LIC")]
    [ReleasePipe.Ev.download Fixture.urlLinux]
    "File /tmp/work/x86_64-unknown-linux-gnu/root/lib/libclang.so does not exist."
    (by decide) (by decide)
  rw [h]
  decide

/-- Counterexample to C5 as stated: the clangd binary is missing from
the extracted payload, bundling it raises the fatal RuntimeError and
the run aborts — but the libclang bundle of the same run was already
uploaded before the abort, so the run does not abort before any
network upload occurs. -/
theorem c5_upload_before_abort_cex :
    (UploadClang.Main Fixture.argsKT Fixture.envNoClangd Fixture.regRel).2
      = some (.runtimeError
          "File /tmp/work/x86_64-unknown-linux-gnu/root/bin/clangd does not exist.") ∧
    ReleasePipe.Ev.uploadAsset
        "https://uploads.github.test/repos/ycm-core/llvm/releases/10.0.0/assets"
        "libclang-10.0.0-x86_64-unknown-linux-gnu.tar.bz2"
      ∈ (UploadClang.Main Fixture.argsKT Fixture.envNoClangd Fixture.regRel).1.evs := by
  refine ⟨?_, ?_⟩ <;> decide

/-- Claim C3 is the intent; the code deletes the extracted tree inside
the package loop, so with the default flags the clangd package of a
successfully fetched and extracted platform is never bundled: the run
aborts on the clangd bundling with File-does-not-exist after bundling
and uploading only libclang, while with --keep-temp the same run
bundles and publishes both packages. -/
theorem c3_driver_second_package_fails :
    ((UploadClang.Main Fixture.argsC3 Fixture.envFull Fixture.regRel).2
      = some (.runtimeError
          "File /tmp/work/x86_64-unknown-linux-gnu/root/bin/clangd does not exist.") ∧
     (UploadClang.Main Fixture.argsC3 Fixture.envFull Fixture.regRel).1.hashes.map
        (fun p => p.1)
      = ["libclang-10.0.0-x86_64-unknown-linux-gnu.tar.bz2"]) ∧
    ((UploadClang.Main Fixture.argsKT Fixture.envFull Fixture.regRel).2 = none ∧
     (UploadClang.Main Fixture.argsKT Fixture.envFull Fixture.regRel).1.hashes.map
        (fun p => p.1)
      = ["libclang-10.0.0-x86_64-unknown-linux-gnu.tar.bz2",
         "clangd-10.0.0-x86_64-unknown-linux-gnu.tar.bz2"] ∧
     ReleasePipe.uploadNames
        (UploadClang.Main Fixture.argsKT Fixture.envFull Fixture.regRel).1.evs
      = ["libclang-10.0.0-x86_64-unknown-linux-gnu.tar.bz2",
         "clangd-10.0.0-x86_64-unknown-linux-gnu.tar.bz2"]) := by
  refine ⟨⟨?_, ?_⟩, ?_, ?_, ?_⟩ <;> decide
